import Mathlib

/-!
# QUAD SPI driver (`ARM/ST/STM32L4xx/src/qspi_stm32l4xx.cpp`)

A shallow embedding of the driver: the peripheral register blocks, the pin
levels and the driver's own records are fields of one state record that
every entry point transforms.  Registers hold 32-bit values (`Nat` taken
modulo `2^32` at every store), C `int` values are `Int`.

Preprocessor symbols and header constants that the translation unit uses
but does not define are collected in `Build`; every entry point takes the
build as its first argument, so each result holds for every choice of them.
-/

namespace QSPI

/-! ## Header constants and build switches -/

/-- Preprocessor switches and header constants used, but not defined, by the
translation unit. -/
structure Build where
  NRF52_SERIES : Bool
  NRF52840_XXAA : Bool
  SPI_SCK_IOPIN_IDX : Nat
  SPI_MISO_IOPIN_IDX : Nat
  SPI_MOSI_IOPIN_IDX : Nat
  SPI_SS_IOPIN_IDX : Nat
  NRF5X_SPI_DMA_MAXCNT : Nat
  SPI_FREQUENCY_FREQUENCY_K125 : Nat
  SPI_FREQUENCY_FREQUENCY_K250 : Nat
  SPI_FREQUENCY_FREQUENCY_K500 : Nat
  SPI_FREQUENCY_FREQUENCY_M1 : Nat
  SPI_FREQUENCY_FREQUENCY_M2 : Nat
  SPI_FREQUENCY_FREQUENCY_M4 : Nat
  SPI_FREQUENCY_FREQUENCY_M8 : Nat
  SPIM_FREQUENCY_FREQUENCY_M16 : Nat
  SPIM_FREQUENCY_FREQUENCY_M32 : Nat
  SPI_CONFIG_ORDER_LsbFirst : Nat
  SPI_CONFIG_ORDER_MsbFirst : Nat
  SPI_CONFIG_CPHA_Trailing : Nat
  SPI_CONFIG_CPHA_Leading : Nat
  SPI_CONFIG_CPHA_Pos : Nat
  SPI_CONFIG_CPOL_ActiveLow : Nat
  SPI_CONFIG_CPOL_ActiveHigh : Nat
  SPI_CONFIG_CPOL_Pos : Nat
  SPI_ENABLE_ENABLE_Enabled : Nat
  SPI_ENABLE_ENABLE_Disabled : Nat
  SPI_ENABLE_ENABLE_Pos : Nat
  SPIM_ENABLE_ENABLE_Enabled : Nat
  SPIM_ENABLE_ENABLE_Disabled : Nat
  SPIM_ENABLE_ENABLE_Pos : Nat
  SPIS_ENABLE_ENABLE_Enabled : Nat
  SPIS_ENABLE_ENABLE_Disabled : Nat
  SPIS_ENABLE_ENABLE_Pos : Nat
  SPIM_RXD_LIST_LIST_ArrayList : Nat
  SPIM_RXD_LIST_LIST_Pos : Nat
  SPIM_TXD_LIST_LIST_ArrayList : Nat
  SPIM_TXD_LIST_LIST_Pos : Nat
  SPIS_SHORTS_END_ACQUIRE_Enabled : Nat
  SPIS_SHORTS_END_ACQUIRE_Pos : Nat
  SPIS_INTENSET_ACQUIRED_Enabled : Nat
  SPIS_INTENSET_ACQUIRED_Pos : Nat
  SPIS_INTENSET_ENDRX_Enabled : Nat
  SPIS_INTENSET_ENDRX_Pos : Nat
  SPIS_INTENSET_END_Enabled : Nat
  SPIS_INTENSET_END_Pos : Nat

/-- Number of devices the driver supports (`#define STM32L4XX_QSPI_MAXDEV 1`). -/
def STM32L4XX_QSPI_MAXDEV : Int := 1

/-! ## Configuration types -/

/-- Modelled from the spec: the chip-select mode of the configuration is
manual or automatic; the enumeration itself is declared in `coredev/spi.h`. -/
inductive SPICSEL where
  | SPICSEL_AUTO
  | SPICSEL_MAN
  deriving DecidableEq, Repr

/-- Modelled from the spec: the wire mode is standard 4-wire or 3-wire
half-duplex; the enumeration itself is declared in `coredev/spi.h`. -/
inductive SPITYPE where
  | SPITYPE_NORMAL
  | SPITYPE_3WIRE
  deriving DecidableEq, Repr

/-- Modelled from the spec: the bus role is master or slave; the enumeration
itself is declared in `coredev/spi.h`. -/
inductive SPIMODE where
  | SPIMODE_MASTER
  | SPIMODE_SLAVE
  deriving DecidableEq, Repr

/-- Modelled from the spec: bit order, MSB or LSB first. -/
inductive SPIDATABIT where
  | SPIDATABIT_MSB
  | SPIDATABIT_LSB
  deriving DecidableEq, Repr

/-- Modelled from the spec: clock phase, data sampled on the first or on the
second clock transition. -/
inductive SPIDATAPHASE where
  | SPIDATAPHASE_FIRST_CLK
  | SPIDATAPHASE_SECOND_CLK
  deriving DecidableEq, Repr

/-- Modelled from the spec: clock polarity. -/
inductive SPICLKPOL where
  | SPICLKPOL_HIGH
  | SPICLKPOL_LOW
  deriving DecidableEq, Repr

/-- Pin map entry: port number and pin number. -/
structure IOPINCFG where
  PortNo : Nat
  PinNo : Nat
  deriving DecidableEq, Repr

/-- Declarative configuration (`SPICFG`).  A function pointer is its address,
`none` for `NULL`. -/
structure SPICFG where
  DevNo : Int
  Type_ : SPITYPE
  Mode : SPIMODE
  pIOPinMap : List IOPINCFG
  NbIOPins : Int
  Rate : Int
  MaxRetry : Int
  BitOrder : SPIDATABIT
  DataPhase : SPIDATAPHASE
  ClkPol : SPICLKPOL
  ChipSel : SPICSEL
  bDmaEn : Bool
  bIntEn : Bool
  IntPrio : Int
  EvtCB : Option Nat
  deriving DecidableEq, Repr

/-- Entry points that the initialisation stores in the interface table. -/
inductive Fn where
  | STM32L4xxQSPIDisable
  | STM32L4xxQSPIEnable
  | STM32L4xxQSPIGetRate
  | STM32L4xxQSPISetRate
  | STM32L4xxQSPIStartRx
  | STM32L4xxQSPIRxData
  | STM32L4xxQSPIStopRx
  | STM32L4xxQSPIStartTx
  | STM32L4xxQSPITxData
  | STM32L4xxQSPIStopTx
  | STM32L4xxQSPIPowerOff
  | nRF52SPIRxDataDma
  | nRF52SPITxDataDma
  deriving DecidableEq, Repr

/-- Generic interface binding (`DEVINTRF`): the capability table and its
bookkeeping fields. -/
structure DEVINTRF where
  pDevData : Option Nat
  isSpiType : Bool
  Disable : Option Fn
  Enable : Option Fn
  GetRate : Option Fn
  SetRate : Option Fn
  StartRx : Option Fn
  RxData : Option Fn
  StopRx : Option Fn
  StartTx : Option Fn
  TxData : Option Fn
  StopTx : Option Fn
  PowerOff : Option Fn
  IntPrio : Int
  EvtCB : Option Nat
  EnCnt : Int
  MaxRetry : Int
  bDma : Bool
  bBusy : Bool
  deriving DecidableEq, Repr

/-- Device record (`SPIDEV`): stored configuration, interface binding,
current chip-select index and the slave-mode buffer descriptors (arrays
indexed by channel). -/
structure SPIDEV where
  Cfg : SPICFG
  DevIntrf : DEVINTRF
  CurDevCs : Int
  pRxBuff : Nat → Nat
  RxBuffLen : Nat → Int
  pTxData : Nat → Nat
  TxDataLen : Nat → Int

/-! ## Registers -/

/-- Registers of the three register groups the driver touches: the master
block (`pReg`), the master DMA block (`pDmaReg`, prefix `DMA_`) and the slave
block (`pDmaSReg`, prefix `S_`).  The two spellings of a DMA or slave field
selected by `NRF52_SERIES` (`RXD.PTR` and `RXDPTR`, `RXD.MAXCNT` and `MAXRX`,
`PSEL.MISO` and `PSELMISO`, ...) name the same register. -/
inductive Reg where
  | CONFIG | ENABLE | FREQUENCY | TXD | RXD | EVENTS_READY
  | PSELSCK | PSELMISO | PSELMOSI | INTENSET | POWER
  | DMA_ENABLE | DMA_ORC
  | DMA_TXD_PTR | DMA_TXD_MAXCNT | DMA_TXD_LIST | DMA_TXD_AMOUNT
  | DMA_RXD_PTR | DMA_RXD_MAXCNT | DMA_RXD_LIST | DMA_RXD_AMOUNT
  | DMA_EVENTS_END | DMA_EVENTS_ENDTX | DMA_EVENTS_ENDRX | DMA_TASKS_START
  | S_ENABLE | S_STATUS | S_ORC | S_DEF | S_SHORTS
  | S_EVENTS_ENDRX | S_EVENTS_END | S_EVENTS_ACQUIRED
  | S_RXD_PTR | S_RXD_MAXCNT | S_RXD_AMOUNT
  | S_TXD_PTR | S_TXD_MAXCNT
  | S_TASKS_ACQUIRE | S_TASKS_RELEASE
  | S_PSEL_SCK | S_PSEL_MISO | S_PSEL_MOSI | S_PSEL_CSN
  deriving DecidableEq, Repr

/-- Event kinds passed to the registered event callback. -/
inductive DEVINTRF_EVT where
  | DEVINTRF_EVT_RX_FIFO_FULL
  | DEVINTRF_EVT_COMPLETED
  | DEVINTRF_EVT_STATECHG
  deriving DecidableEq, Repr

/-- Interrupt lines named by the initialisation. -/
inductive IRQn where
  | SPI1_IRQn
  | SPI2_IRQn
  | SPI3_IRQn
  deriving DecidableEq, Repr

/-- Calls into services outside the driver, recorded in program order. -/
inductive ExtCall where
  | IOPinCfg (map : List IOPINCFG) (n : Int)
  | SetI2cSpiIntHandler (devNo : Int)
  | NVIC_ClearPendingIRQ (irq : IRQn)
  | NVIC_SetPriority (irq : IRQn) (prio : Int)
  | NVIC_EnableIRQ (irq : IRQn)
  | EvtCB (evt : DEVINTRF_EVT) (pData : Nat) (len : Nat)
  deriving DecidableEq, Repr

/-- What the peripheral answers to the driver's volatile reads and waits.
`ready i` is the value seen by the `i`-th read of `EVENTS_READY`, `rxd i` the
value of the `i`-th read of `RXD`, `dmaDone i` the result of the `i`-th DMA
completion wait and `txAmount i` the value the transmit amount register reads
after that wait. -/
structure Periph where
  ready : Nat → Bool
  rxd : Nat → Nat
  dmaDone : Nat → Bool
  txAmount : Nat → Nat

/-- Driver state: register contents, the sequence of register writes, pin
levels (`true` is high), calls to outside services, the device record, the
device pointer held in the static device table, and how many observations of
each kind the peripheral has already answered. -/
structure Driver where
  reg : Reg → Nat
  wlog : List (Reg × Nat)
  pinLevel : Nat → Nat → Bool
  ext : List ExtCall
  spidev : SPIDEV
  tabSpiDev : Option Nat
  polls : Nat
  rxReads : Nat
  dmaChunks : Nat

/-! ## Elementary state updates -/

/-- A 32-bit register store of a non-negative value. -/
def Driver.wr (st : Driver) (r : Reg) (v : Nat) : Driver :=
  { st with
    reg := fun r' => if r' = r then v % 4294967296 else st.reg r'
    wlog := st.wlog ++ [(r, v % 4294967296)] }

/-- A 32-bit register store of a C `int` (two's complement). -/
def Driver.wrInt (st : Driver) (r : Reg) (v : Int) : Driver :=
  st.wr r (v % 4294967296).toNat

/-- Conversion of a 32-bit register value to C `int`. -/
def toInt32 (v : Nat) : Int :=
  if v % 4294967296 < 2147483648 then (v % 4294967296 : Nat)
  else ((v % 4294967296 : Nat) : Int) - 4294967296

/-- Modelled from the spec: `IOPinSet` of the pin service drives the line
high (deasserts a chip-select). -/
def IOPinSet (st : Driver) (port pin : Nat) : Driver :=
  { st with pinLevel := fun a b => if a = port ∧ b = pin then true else st.pinLevel a b }

/-- Modelled from the spec: `IOPinClear` of the pin service drives the line
low (asserts a chip-select). -/
def IOPinClear (st : Driver) (port pin : Nat) : Driver :=
  { st with pinLevel := fun a b => if a = port ∧ b = pin then false else st.pinLevel a b }

/-- Record a call to an outside service. -/
def Driver.call (st : Driver) (c : ExtCall) : Driver :=
  { st with ext := st.ext ++ [c] }

/-- Store the achieved rate, `dev->pSpiDev->Cfg.Rate = r`. -/
def Driver.setRate (st : Driver) (r : Int) : Driver :=
  { st with spidev := { st.spidev with Cfg := { st.spidev.Cfg with Rate := r } } }

/-- The pin map entry `pIOPinMap[i]`. -/
def pinAt (cfg : SPICFG) (i : Nat) : IOPINCFG :=
  cfg.pIOPinMap.getD i ⟨0, 0⟩

/-- The pin-select code `(PinNo & 0x1f) | (PortNo << 5)` of a pin map entry. -/
def pselOf (p : IOPINCFG) : Nat :=
  (p.PinNo &&& 0x1f) ||| (p.PortNo <<< 5)

/-! ## Rate configurator -/

/-- `STM32L4xxQSPISetRate`: select the divisor code, record and return the
achieved rate. -/
def STM32L4xxQSPISetRate (k : Build) (st : Driver) (DataRate : Int) : Int × Driver :=
  let st1 :=
    if DataRate < 250000 then
      (st.wr Reg.FREQUENCY k.SPI_FREQUENCY_FREQUENCY_K125).setRate 125000
    else if DataRate < 500000 then
      (st.wr Reg.FREQUENCY k.SPI_FREQUENCY_FREQUENCY_K250).setRate 250000
    else if DataRate < 1000000 then
      (st.wr Reg.FREQUENCY k.SPI_FREQUENCY_FREQUENCY_K500).setRate 500000
    else if DataRate < 2000000 then
      (st.wr Reg.FREQUENCY k.SPI_FREQUENCY_FREQUENCY_M1).setRate 1000000
    else if DataRate < 4000000 then
      (st.wr Reg.FREQUENCY k.SPI_FREQUENCY_FREQUENCY_M2).setRate 2000000
    else if DataRate < 8000000 then
      (st.wr Reg.FREQUENCY k.SPI_FREQUENCY_FREQUENCY_M4).setRate 4000000
    else if k.NRF52840_XXAA then
      if DataRate < 16000000 then
        (st.wr Reg.FREQUENCY k.SPI_FREQUENCY_FREQUENCY_M8).setRate 8000000
      else if DataRate < 32000000 then
        (st.wr Reg.FREQUENCY k.SPIM_FREQUENCY_FREQUENCY_M16).setRate 16000000
      else
        (st.wr Reg.FREQUENCY k.SPIM_FREQUENCY_FREQUENCY_M32).setRate 32000000
    else
      (st.wr Reg.FREQUENCY k.SPI_FREQUENCY_FREQUENCY_M8).setRate 8000000
  (st1.spidev.Cfg.Rate, st1)

/-- The rate ladder in the spec's words: 125k/250k/500k/1M/2M/4M/8M, extended
to 16M/32M on the higher-tier silicon variant. -/
def ladder (k : Build) : List Int :=
  [125000, 250000, 500000, 1000000, 2000000, 4000000, 8000000] ++
    (if k.NRF52840_XXAA then [16000000, 32000000] else [])

/-- The slowest ladder rung. -/
def slowestRung : Int := 125000

/-- The fastest ladder rung of a build. -/
def fastestRung (k : Build) : Int :=
  if k.NRF52840_XXAA then 32000000 else 8000000

/-- The spec's rounding rule: the smallest ladder rung that is at least the
request, if there is one. -/
def smallestRungAtLeast (k : Build) (r : Int) : Option Int :=
  (ladder k).find? (fun x => decide (r ≤ x))

/-! ## Chip-select manager -/

/-- Store the current device index, `dev->pSpiDev->CurDevCs = DevCs`. -/
def Driver.setCurDevCs (st : Driver) (DevCs : Int) : Driver :=
  { st with spidev := { st.spidev with CurDevCs := DevCs } }

/-- The chip-select pin map entry `pIOPinMap[cs + SPI_SS_IOPIN_IDX]`. -/
def csPin (k : Build) (cfg : SPICFG) (cs : Int) : IOPINCFG :=
  pinAt cfg (cs + k.SPI_SS_IOPIN_IDX).toNat

/-- `STM32L4xxQSPIStartRx`: begin a receive phase for logical device `DevCs`. -/
def STM32L4xxQSPIStartRx (k : Build) (st : Driver) (DevCs : Int) : Bool × Driver :=
  if st.spidev.Cfg.ChipSel = SPICSEL.SPICSEL_MAN then (true, st)
  else if DevCs < 0 ∨ DevCs ≥ st.spidev.Cfg.NbIOPins - k.SPI_SS_IOPIN_IDX then (false, st)
  else
    let st1 := st.setCurDevCs DevCs
    let st2 := IOPinClear st1 (csPin k st1.spidev.Cfg DevCs).PortNo
      (csPin k st1.spidev.Cfg DevCs).PinNo
    if st2.spidev.Cfg.Type_ = SPITYPE.SPITYPE_3WIRE then
      (true, (st2.wr Reg.PSELMISO
        (pselOf (pinAt st2.spidev.Cfg k.SPI_MISO_IOPIN_IDX))).wrInt Reg.PSELMOSI (-1))
    else (true, st2)

/-- `STM32L4xxQSPIStopRx`: end a receive phase.  The 3-wire block of the
source holds only commented-out statements. -/
def STM32L4xxQSPIStopRx (k : Build) (st : Driver) : Driver :=
  if st.spidev.Cfg.ChipSel = SPICSEL.SPICSEL_AUTO then
    IOPinSet st (csPin k st.spidev.Cfg st.spidev.CurDevCs).PortNo
      (csPin k st.spidev.Cfg st.spidev.CurDevCs).PinNo
  else st

/-- `STM32L4xxQSPIStartTx`: begin a transmit phase for logical device `DevCs`. -/
def STM32L4xxQSPIStartTx (k : Build) (st : Driver) (DevCs : Int) : Bool × Driver :=
  if st.spidev.Cfg.ChipSel = SPICSEL.SPICSEL_MAN then (true, st)
  else if DevCs < 0 ∨ DevCs ≥ st.spidev.Cfg.NbIOPins - k.SPI_SS_IOPIN_IDX then (false, st)
  else
    let st1 := st.setCurDevCs DevCs
    let st2 := IOPinClear st1 (csPin k st1.spidev.Cfg DevCs).PortNo
      (csPin k st1.spidev.Cfg DevCs).PinNo
    if st2.spidev.Cfg.Type_ = SPITYPE.SPITYPE_3WIRE then
      (true, (st2.wr Reg.PSELMOSI
        (pselOf (pinAt st2.spidev.Cfg k.SPI_MISO_IOPIN_IDX))).wrInt Reg.PSELMISO (-1))
    else (true, st2)

/-- `STM32L4xxQSPIStopTx`: end a transmit phase. -/
def STM32L4xxQSPIStopTx (k : Build) (st : Driver) : Driver :=
  let st1 :=
    if st.spidev.Cfg.ChipSel = SPICSEL.SPICSEL_AUTO then
      IOPinSet st (csPin k st.spidev.Cfg st.spidev.CurDevCs).PortNo
        (csPin k st.spidev.Cfg st.spidev.CurDevCs).PinNo
    else st
  if st1.spidev.Cfg.Type_ = SPITYPE.SPITYPE_3WIRE then
    (st1.wrInt Reg.PSELMOSI (-1)).wr Reg.PSELMISO
      (pselOf (pinAt st1.spidev.Cfg k.SPI_MISO_IOPIN_IDX))
  else st1

/-! ## Transfer engine: polled path -/

/-- Count one more answered read of the readiness flag. -/
def Driver.polled (st : Driver) : Driver :=
  { st with polls := st.polls + 1 }

/-- Count `n` more answered reads of the readiness flag. -/
def Driver.polledBy (st : Driver) (n : Nat) : Driver :=
  { st with polls := st.polls + n }

/-- `STM32L4xxQSPIWaitReady`: the do-while poll of `EVENTS_READY`; with budget
`Timeout` the flag is read at most `Timeout + 1` times, and a set flag is
cleared before returning `true`. -/
def STM32L4xxQSPIWaitReady (p : Periph) (st : Driver) : Nat → Bool × Driver
  | 0 =>
    if p.ready st.polls then (true, st.polled.wr Reg.EVENTS_READY 0)
    else (false, st.polled)
  | Timeout + 1 =>
    if p.ready st.polls then (true, st.polled.wr Reg.EVENTS_READY 0)
    else STM32L4xxQSPIWaitReady p st.polled Timeout

/-- Modelled from the spec: the polled transfers call the readiness wait
under the name `nRF5xSPIWaitReady`, which this translation unit does not
define; it is the readiness-wait primitive, a busy-poll with a caller-supplied
iteration budget that clears the flag on success, which the file defines as
`STM32L4xxQSPIWaitReady`. -/
def nRF5xSPIWaitReady (p : Periph) (st : Driver) (Timeout : Nat) : Bool × Driver :=
  STM32L4xxQSPIWaitReady p st Timeout

/-- Read the receive data register: the peripheral supplies the value. -/
def Driver.readRXD (p : Periph) (st : Driver) : Nat × Driver :=
  (p.rxd st.rxReads, { st with rxReads := st.rxReads + 1 })

/-- The `while (BuffLen > 0)` loop of `STM32L4xxQSPIRxData`; the first
argument is the remaining `BuffLen`, `i` the offset of `pBuff` in the buffer. -/
def RxDataLoop (p : Periph) : Nat → Driver → List Nat → Nat → Int → Int × List Nat × Driver
  | 0, st, buf, _, cnt => (cnt, buf, st)
  | n + 1, st, buf, i, cnt =>
    if (nRF5xSPIWaitReady p (st.wr Reg.TXD 0xFF) 100000).1 = false then
      (cnt, buf, (nRF5xSPIWaitReady p (st.wr Reg.TXD 0xFF) 100000).2)
    else
      RxDataLoop p n
        (Driver.readRXD p (nRF5xSPIWaitReady p (st.wr Reg.TXD 0xFF) 100000).2).2
        (buf.set i ((Driver.readRXD p (nRF5xSPIWaitReady p (st.wr Reg.TXD 0xFF) 100000).2).1
          % 256))
        (i + 1) (cnt + 1)

/-- `STM32L4xxQSPIRxData`: polled receive of `BuffLen` bytes into `pBuff`;
returns the byte count, the buffer and the state. -/
def STM32L4xxQSPIRxData (p : Periph) (st : Driver) (pBuff : List Nat) (BuffLen : Int) :
    Int × List Nat × Driver :=
  RxDataLoop p BuffLen.toNat (st.wr Reg.EVENTS_READY 0) pBuff 0 0

/-- The `while (DataLen > 0)` loop of `STM32L4xxQSPITxData`. -/
def TxDataLoop (p : Periph) : Nat → Driver → List Nat → Nat → Int → Int × Driver
  | 0, st, _, _, cnt => (cnt, st)
  | n + 1, st, data, i, cnt =>
    if (nRF5xSPIWaitReady p (st.wr Reg.TXD (data.getD i 0)) 10000).1 = false then
      (cnt, (nRF5xSPIWaitReady p (st.wr Reg.TXD (data.getD i 0)) 10000).2)
    else
      TxDataLoop p n
        (Driver.readRXD p (nRF5xSPIWaitReady p (st.wr Reg.TXD (data.getD i 0)) 10000).2).2
        data (i + 1) (cnt + 1)

/-- `STM32L4xxQSPITxData`: polled transmit of `DataLen` bytes; `pData` is
`none` for a null pointer. -/
def STM32L4xxQSPITxData (p : Periph) (st : Driver) (pData : Option (List Nat))
    (DataLen : Int) : Int × Driver :=
  match pData with
  | none => (0, st)
  | some data => TxDataLoop p DataLen.toNat st data 0 0

/-- The index, within a wait of the given budget started at observation
`pos`, of the first observation that shows the readiness flag set. -/
def firstSet (ready : Nat → Bool) (pos budget : Nat) : Option Nat :=
  (List.range (budget + 1)).find? (fun j => ready (pos + j))

/-- In the spec's words: the number of bytes moved before the first readiness
wait that times out, out of `n` requested, when the waits start at
observation `pos`. -/
def bytesBeforeTimeout (ready : Nat → Bool) (budget : Nat) : Nat → Nat → Nat
  | 0, _ => 0
  | n + 1, pos =>
    match firstSet ready pos budget with
    | none => 0
    | some j => 1 + bytesBeforeTimeout ready budget n (pos + j + 1)

/-! ## Transfer engine: DMA path -/

/-- Modelled from the spec: the DMA-completion wait `nRF52SPIWaitDMA`, a wait
with its own timeout, is not defined in this translation unit; the peripheral
supplies its result for each chunk. -/
def nRF52SPIWaitDMA (p : Periph) (st : Driver) (_Timeout : Nat) : Bool × Driver :=
  (p.dmaDone st.dmaChunks, { st with dmaChunks := st.dmaChunks + 1 })

/-- The head of one iteration of the DMA transmit loop: program the chunk
length `min(DataLen, NRF5X_SPI_DMA_MAXCNT)`, clear the completion events and
trigger the start task. -/
def dmaChunkStart (k : Build) (st : Driver) (DataLen : Int) : Driver :=
  (((st.wrInt Reg.DMA_TXD_MAXCNT (min DataLen k.NRF5X_SPI_DMA_MAXCNT)).wr
    Reg.DMA_EVENTS_END 0).wr Reg.DMA_EVENTS_ENDTX 0).wr Reg.DMA_TASKS_START 1

/-- The `while (DataLen > 0)` loop of `STM32L4xxQSPITxDataDma`.  The amount
register may read zero, so the loop need not end: the first argument bounds
the number of iterations and `none` reports that the bound was reached.  The
local pointer `pData` is advanced by the source but not used again, so it is
not carried along. -/
def TxDataDmaLoop (k : Build) (p : Periph) : Nat → Driver → Int → Int → Option (Int × Driver)
  | 0, st, DataLen, cnt => if DataLen > 0 then none else some (cnt, st)
  | fuel + 1, st, DataLen, cnt =>
    if DataLen > 0 then
      if (nRF52SPIWaitDMA p (dmaChunkStart k st DataLen) 100000).1 = false then
        some (cnt, (nRF52SPIWaitDMA p (dmaChunkStart k st DataLen) 100000).2)
      else
        TxDataDmaLoop k p fuel (nRF52SPIWaitDMA p (dmaChunkStart k st DataLen) 100000).2
          (DataLen - toInt32 (p.txAmount st.dmaChunks))
          (cnt + toInt32 (p.txAmount st.dmaChunks))
    else some (cnt, st)

/-- `STM32L4xxQSPITxDataDma`: DMA transmit of `DataLen` bytes from address
`pData`.  The whole body is compiled only under `NRF52_SERIES`. -/
def STM32L4xxQSPITxDataDma (k : Build) (p : Periph) (st : Driver) (pData : Nat)
    (DataLen : Int) (fuel : Nat) : Option (Int × Driver) :=
  if k.NRF52_SERIES then
    TxDataDmaLoop k p fuel
      (((((st.wr Reg.DMA_RXD_PTR 0).wr Reg.DMA_RXD_MAXCNT 0).wr Reg.DMA_RXD_LIST 0).wr
        Reg.DMA_TXD_PTR pData).wr Reg.DMA_TXD_LIST
          (k.SPIM_TXD_LIST_LIST_ArrayList <<< k.SPIM_TXD_LIST_LIST_Pos))
      DataLen 0
  else some (0, st)

/-- The register writes of one DMA chunk of programmed length `l`. -/
def chunkWrites (l : Nat) : List (Reg × Nat) :=
  [(Reg.DMA_TXD_MAXCNT, l), (Reg.DMA_EVENTS_END, 0), (Reg.DMA_EVENTS_ENDTX, 0),
   (Reg.DMA_TASKS_START, 1)]

/-- The chunk length programmed for a positive remaining length: what is
stored in the length register, and never more than the maximum chunk size. -/
def chunkLen (k : Build) (DataLen : Int) : Nat :=
  (min DataLen k.NRF5X_SPI_DMA_MAXCNT % 4294967296).toNat

/-- The register writes of a sequence of DMA chunks. -/
def allChunkWrites : List Nat → List (Reg × Nat)
  | [] => []
  | l :: ls => chunkWrites l ++ allChunkWrites ls

/-- The register writes that precede the DMA transmit loop. -/
def dmaSetupWrites (k : Build) (pData : Nat) : List (Reg × Nat) :=
  [(Reg.DMA_RXD_PTR, 0), (Reg.DMA_RXD_MAXCNT, 0), (Reg.DMA_RXD_LIST, 0),
   (Reg.DMA_TXD_PTR, pData % 4294967296),
   (Reg.DMA_TXD_LIST,
     (k.SPIM_TXD_LIST_LIST_ArrayList <<< k.SPIM_TXD_LIST_LIST_Pos) % 4294967296)]

/-- The spec's `ceil(length / maxChunk)`. -/
def ceilDiv (n m : Nat) : Nat :=
  (n + m - 1) / m

/-- Number of writes to a given register in a sequence of register writes. -/
def writesTo (r : Reg) (log : List (Reg × Nat)) : Nat :=
  (log.filter (fun e => decide (e.1 = r))).length

/-- The amount the hardware reported for chunk `i`, zero for a chunk whose
completion wait timed out. -/
def reportedAmount (p : Periph) (i : Nat) : Int :=
  if p.dmaDone i then toInt32 (p.txAmount i) else 0

/-- Sum of the reported amounts of the `n` chunks starting with chunk `c`. -/
def sumReported (p : Periph) (c : Nat) : Nat → Int
  | 0 => 0
  | n + 1 => reportedAmount p c + sumReported p (c + 1) n

/-! ## Slave acquire/release -/

/-- The loop `for (i = SPI_SS_IOPIN_IDX; i < NbIOPins; i++) IOPinSet(...)`:
drive the `n` pins from map index `i` on high. -/
def setPinsFrom (cfg : SPICFG) : Nat → Nat → Driver → Driver
  | 0, _, st => st
  | n + 1, i, st => setPinsFrom cfg n (i + 1) (IOPinSet st (pinAt cfg i).PortNo (pinAt cfg i).PinNo)

/-- The configuration word built from bit order, clock phase and polarity. -/
def cfgWord (k : Build) (cfg : SPICFG) : Nat :=
  let c0 : Nat := 0
  let c1 := c0 ||| (if cfg.BitOrder = SPIDATABIT.SPIDATABIT_LSB then k.SPI_CONFIG_ORDER_LsbFirst
    else k.SPI_CONFIG_ORDER_MsbFirst)
  let c2 := c1 ||| (if cfg.DataPhase = SPIDATAPHASE.SPIDATAPHASE_SECOND_CLK
    then k.SPI_CONFIG_CPHA_Trailing <<< k.SPI_CONFIG_CPHA_Pos
    else k.SPI_CONFIG_CPHA_Leading <<< k.SPI_CONFIG_CPHA_Pos)
  c2 ||| (if cfg.ClkPol = SPICLKPOL.SPICLKPOL_LOW
    then k.SPI_CONFIG_CPOL_ActiveLow <<< k.SPI_CONFIG_CPOL_Pos
    else k.SPI_CONFIG_CPOL_ActiveHigh <<< k.SPI_CONFIG_CPOL_Pos)

/-- The interface table bound to this driver's entry points, with the DMA
flag taken from the configuration. -/
def boundIntrf (cfg : SPICFG) (d : DEVINTRF) : DEVINTRF :=
  { d with
    isSpiType := true
    Disable := some Fn.STM32L4xxQSPIDisable
    Enable := some Fn.STM32L4xxQSPIEnable
    GetRate := some Fn.STM32L4xxQSPIGetRate
    SetRate := some Fn.STM32L4xxQSPISetRate
    StartRx := some Fn.STM32L4xxQSPIStartRx
    RxData := some Fn.STM32L4xxQSPIRxData
    StopRx := some Fn.STM32L4xxQSPIStopRx
    StartTx := some Fn.STM32L4xxQSPIStartTx
    TxData := some Fn.STM32L4xxQSPITxData
    StopTx := some Fn.STM32L4xxQSPIStopTx
    IntPrio := cfg.IntPrio
    EvtCB := cfg.EvtCB
    EnCnt := 1
    MaxRetry := cfg.MaxRetry
    bDma := cfg.bDmaEn
    PowerOff := some Fn.STM32L4xxQSPIPowerOff
    bBusy := false }

/-- Slave mode forces DMA on; a set DMA flag selects the DMA transfer entry
points. -/
def resolveDma (cfg : SPICFG) (d : DEVINTRF) : DEVINTRF :=
  let d1 := if cfg.Mode = SPIMODE.SPIMODE_SLAVE then { d with bDma := true } else d
  if d1.bDma = true then
    { d1 with RxData := some Fn.nRF52SPIRxDataDma, TxData := some Fn.nRF52SPITxDataDma }
  else d1

/-- Replace the interface table of the device record. -/
def Driver.setIntrf (st : Driver) (d : DEVINTRF) : Driver :=
  { st with spidev := { st.spidev with DevIntrf := d } }

/-- The slave branch of the initialisation: pin roles, filler characters,
event flags, shortcut, enable and the initial acquire task. -/
def initSlave (k : Build) (cfg : SPICFG) (st : Driver) : Driver :=
  let a := st.wr Reg.S_PSEL_SCK (pselOf (pinAt cfg k.SPI_SCK_IOPIN_IDX))
  let b := a.wr Reg.S_PSEL_MISO (pselOf (pinAt cfg k.SPI_MISO_IOPIN_IDX))
  let c := b.wr Reg.S_PSEL_MOSI (pselOf (pinAt cfg k.SPI_MOSI_IOPIN_IDX))
  let d := c.wr Reg.S_PSEL_CSN (pselOf (pinAt cfg k.SPI_SS_IOPIN_IDX))
  let e := d.wr Reg.S_ORC 0xFF
  let f := e.wr Reg.S_STATUS (e.reg Reg.S_STATUS)
  let g := f.wr Reg.S_EVENTS_ENDRX 0
  let h := g.wr Reg.S_EVENTS_END 0
  let i := h.wr Reg.S_EVENTS_ACQUIRED 0
  let j := i.wr Reg.S_DEF 0xFF
  let l := j.wr Reg.S_SHORTS (k.SPIS_SHORTS_END_ACQUIRE_Enabled <<< k.SPIS_SHORTS_END_ACQUIRE_Pos)
  let m := l.wr Reg.ENABLE (k.SPIS_ENABLE_ENABLE_Enabled <<< k.SPIS_ENABLE_ENABLE_Pos)
  m.wr Reg.S_TASKS_ACQUIRE 1

/-- The interrupt-enable mask of the slave branch. -/
def slaveInten (k : Build) : Nat :=
  (k.SPIS_INTENSET_ACQUIRED_Enabled <<< k.SPIS_INTENSET_ACQUIRED_Pos) |||
  (k.SPIS_INTENSET_ENDRX_Enabled <<< k.SPIS_INTENSET_ENDRX_Pos) |||
  (k.SPIS_INTENSET_END_Enabled <<< k.SPIS_INTENSET_END_Pos)

/-- The master branch of the initialisation: pin roles, enable, clear the
readiness flag. -/
def initMaster (k : Build) (cfg : SPICFG) (st : Driver) : Driver :=
  let a := st.wr Reg.PSELSCK (pselOf (pinAt cfg k.SPI_SCK_IOPIN_IDX))
  let b := a.wr Reg.PSELMISO (pselOf (pinAt cfg k.SPI_MISO_IOPIN_IDX))
  let c := b.wr Reg.PSELMOSI (pselOf (pinAt cfg k.SPI_MOSI_IOPIN_IDX))
  let d :=
    if k.NRF52_SERIES = true ∧ c.spidev.DevIntrf.bDma = true then
      (c.wr Reg.DMA_ORC 0xFF).wr Reg.DMA_ENABLE
        (k.SPIM_ENABLE_ENABLE_Enabled <<< k.SPIM_ENABLE_ENABLE_Pos)
    else c.wr Reg.ENABLE (k.SPI_ENABLE_ENABLE_Enabled <<< k.SPI_ENABLE_ENABLE_Pos)
  d.wr Reg.EVENTS_READY 0

/-- The `switch (pCfgData->DevNo)` that enables the interrupt line. -/
def enableIrq (cfg : SPICFG) (st : Driver) : Driver :=
  if cfg.DevNo = 0 then
    ((st.call (ExtCall.NVIC_ClearPendingIRQ IRQn.SPI1_IRQn)).call
      (ExtCall.NVIC_SetPriority IRQn.SPI1_IRQn cfg.IntPrio)).call
      (ExtCall.NVIC_EnableIRQ IRQn.SPI1_IRQn)
  else if cfg.DevNo = 1 then
    ((st.call (ExtCall.NVIC_ClearPendingIRQ IRQn.SPI2_IRQn)).call
      (ExtCall.NVIC_SetPriority IRQn.SPI2_IRQn cfg.IntPrio)).call
      (ExtCall.NVIC_EnableIRQ IRQn.SPI2_IRQn)
  else if cfg.DevNo = 2 then
    ((st.call (ExtCall.NVIC_ClearPendingIRQ IRQn.SPI3_IRQn)).call
      (ExtCall.NVIC_SetPriority IRQn.SPI3_IRQn cfg.IntPrio)).call
      (ExtCall.NVIC_EnableIRQ IRQn.SPI3_IRQn)
  else st

/-- `SPIInit`: `pDev` is the address of the caller's device record (`none`
for a null pointer; the record itself is the `spidev` field of the state),
`pCfgData` the configuration pointed to (`none` for a null pointer).  The
rate is applied through the file's rate configurator, which the source calls
under the name `STM32L4xxSPISetRate`. -/
def SPIInit (k : Build) (st : Driver) (pDev : Option Nat) (pCfgData : Option SPICFG) :
    Bool × Driver :=
  match pDev, pCfgData with
  | none, _ => (false, st)
  | some _, none => (false, st)
  | some addr, some cfg =>
    if cfg.DevNo < 0 ∨ cfg.DevNo ≥ STM32L4XX_QSPI_MAXDEV ∨ cfg.NbIOPins < 6 then (false, st)
    else
      let s1 := st.call (ExtCall.IOPinCfg cfg.pIOPinMap cfg.NbIOPins)
      let s2 := setPinsFrom cfg (cfg.NbIOPins - k.SPI_SS_IOPIN_IDX).toNat k.SPI_SS_IOPIN_IDX s1
      let s3 :=
        if cfg.ClkPol = SPICLKPOL.SPICLKPOL_LOW then
          IOPinSet s2 0 (pinAt cfg k.SPI_SCK_IOPIN_IDX).PinNo
        else IOPinClear s2 0 (pinAt cfg k.SPI_SCK_IOPIN_IDX).PinNo
      let s4 := s3.wr Reg.CONFIG (cfgWord k cfg)
      let s5 : Driver :=
        { s4 with
          spidev := { s4.spidev with
            Cfg := cfg
            DevIntrf := { s4.spidev.DevIntrf with pDevData := some cfg.DevNo.toNat } }
          tabSpiDev := some addr }
      let s6 := (STM32L4xxQSPISetRate k s5 cfg.Rate).2
      let s7 := s6.setIntrf (resolveDma cfg (boundIntrf cfg s6.spidev.DevIntrf))
      let s8 :=
        if cfg.Mode = SPIMODE.SPIMODE_SLAVE then initSlave k cfg s7 else initMaster k cfg s7
      let inten := if cfg.Mode = SPIMODE.SPIMODE_SLAVE then slaveInten k else 0
      let s9 :=
        if cfg.bIntEn = true then
          (enableIrq cfg (s8.call (ExtCall.SetI2cSpiIntHandler cfg.DevNo))).wr Reg.INTENSET inten
        else s8
      (true, s9)

/-- The inputs the initialisation rejects: a null device pointer, a null
configuration pointer, a device index out of range or fewer than six pins. -/
def initRejects (pDev : Option Nat) (pCfgData : Option SPICFG) : Prop :=
  pDev = none ∨ pCfgData = none ∨
    ∃ cfg, pCfgData = some cfg ∧
      (cfg.DevNo < 0 ∨ cfg.DevNo ≥ STM32L4XX_QSPI_MAXDEV ∨ cfg.NbIOPins < 6)

/-! ## Sample build and state -/

/-- A build for the STM32L4 target: neither Nordic switch is defined; pin map
ordered clock, MISO, MOSI, chip-selects; header constants as in the vendor
headers the register names come from. -/
def sampleBuild : Build where
  NRF52_SERIES := false
  NRF52840_XXAA := false
  SPI_SCK_IOPIN_IDX := 0
  SPI_MISO_IOPIN_IDX := 1
  SPI_MOSI_IOPIN_IDX := 2
  SPI_SS_IOPIN_IDX := 3
  NRF5X_SPI_DMA_MAXCNT := 255
  SPI_FREQUENCY_FREQUENCY_K125 := 0x02000000
  SPI_FREQUENCY_FREQUENCY_K250 := 0x04000000
  SPI_FREQUENCY_FREQUENCY_K500 := 0x08000000
  SPI_FREQUENCY_FREQUENCY_M1 := 0x10000000
  SPI_FREQUENCY_FREQUENCY_M2 := 0x20000000
  SPI_FREQUENCY_FREQUENCY_M4 := 0x40000000
  SPI_FREQUENCY_FREQUENCY_M8 := 0x80000000
  SPIM_FREQUENCY_FREQUENCY_M16 := 0x0A000000
  SPIM_FREQUENCY_FREQUENCY_M32 := 0x14000000
  SPI_CONFIG_ORDER_LsbFirst := 1
  SPI_CONFIG_ORDER_MsbFirst := 0
  SPI_CONFIG_CPHA_Trailing := 1
  SPI_CONFIG_CPHA_Leading := 0
  SPI_CONFIG_CPHA_Pos := 1
  SPI_CONFIG_CPOL_ActiveLow := 1
  SPI_CONFIG_CPOL_ActiveHigh := 0
  SPI_CONFIG_CPOL_Pos := 2
  SPI_ENABLE_ENABLE_Enabled := 1
  SPI_ENABLE_ENABLE_Disabled := 0
  SPI_ENABLE_ENABLE_Pos := 0
  SPIM_ENABLE_ENABLE_Enabled := 7
  SPIM_ENABLE_ENABLE_Disabled := 0
  SPIM_ENABLE_ENABLE_Pos := 0
  SPIS_ENABLE_ENABLE_Enabled := 2
  SPIS_ENABLE_ENABLE_Disabled := 0
  SPIS_ENABLE_ENABLE_Pos := 0
  SPIM_RXD_LIST_LIST_ArrayList := 1
  SPIM_RXD_LIST_LIST_Pos := 0
  SPIM_TXD_LIST_LIST_ArrayList := 1
  SPIM_TXD_LIST_LIST_Pos := 0
  SPIS_SHORTS_END_ACQUIRE_Enabled := 1
  SPIS_SHORTS_END_ACQUIRE_Pos := 2
  SPIS_INTENSET_ACQUIRED_Enabled := 1
  SPIS_INTENSET_ACQUIRED_Pos := 10
  SPIS_INTENSET_ENDRX_Enabled := 1
  SPIS_INTENSET_ENDRX_Pos := 4
  SPIS_INTENSET_END_Enabled := 1
  SPIS_INTENSET_END_Pos := 1

/-- The sample build with the Nordic DMA paths compiled in. -/
def sampleBuildDma : Build :=
  { sampleBuild with NRF52_SERIES := true }

/-- A six-entry pin map: clock, MISO, MOSI and three chip-selects. -/
def samplePins : List IOPINCFG :=
  [⟨0, 1⟩, ⟨0, 2⟩, ⟨0, 3⟩, ⟨0, 4⟩, ⟨0, 5⟩, ⟨0, 6⟩]

/-- A master-mode, automatic chip-select, 4-wire configuration. -/
def sampleCfg : SPICFG where
  DevNo := 0
  Type_ := SPITYPE.SPITYPE_NORMAL
  Mode := SPIMODE.SPIMODE_MASTER
  pIOPinMap := samplePins
  NbIOPins := 6
  Rate := 1000000
  MaxRetry := 5
  BitOrder := SPIDATABIT.SPIDATABIT_MSB
  DataPhase := SPIDATAPHASE.SPIDATAPHASE_FIRST_CLK
  ClkPol := SPICLKPOL.SPICLKPOL_HIGH
  ChipSel := SPICSEL.SPICSEL_AUTO
  bDmaEn := false
  bIntEn := false
  IntPrio := 6
  EvtCB := none

/-- The sample configuration with manual chip-select. -/
def sampleCfgManual : SPICFG :=
  { sampleCfg with ChipSel := SPICSEL.SPICSEL_MAN }

/-- The sample configuration in 3-wire mode with manual chip-select. -/
def sampleCfgManual3Wire : SPICFG :=
  { sampleCfg with ChipSel := SPICSEL.SPICSEL_MAN, Type_ := SPITYPE.SPITYPE_3WIRE }

/-- The sample configuration with a pin map of five entries. -/
def sampleCfgFivePins : SPICFG :=
  { sampleCfg with pIOPinMap := samplePins.take 5, NbIOPins := 5 }

/-- A peripheral that never signals anything: the readiness flag stays clear
and every DMA completion wait times out. -/
def silentPeriph : Periph where
  ready := fun _ => false
  rxd := fun _ => 0
  dmaDone := fun _ => false
  txAmount := fun _ => 0

/-- A peripheral that completes every DMA chunk of a 510-byte transfer in
full, 255 bytes at a time. -/
def promptPeriph : Periph where
  ready := fun _ => true
  rxd := fun i => i
  dmaDone := fun _ => true
  txAmount := fun _ => 255

/-- A peripheral whose readiness flag shows set at the third observation
only. -/
def lateReadyPeriph : Periph where
  ready := fun i => decide (i = 2)
  rxd := fun _ => 0
  dmaDone := fun _ => false
  txAmount := fun _ => 0

/-- An interface table with nothing bound. -/
def emptyIntrf : DEVINTRF where
  pDevData := none
  isSpiType := false
  Disable := none
  Enable := none
  GetRate := none
  SetRate := none
  StartRx := none
  RxData := none
  StopRx := none
  StartTx := none
  TxData := none
  StopTx := none
  PowerOff := none
  IntPrio := 0
  EvtCB := none
  EnCnt := 0
  MaxRetry := 0
  bDma := false
  bBusy := false

/-- A device record holding a configuration, chip-select index 0 current. -/
def deviceWith (cfg : SPICFG) : SPIDEV where
  Cfg := cfg
  DevIntrf := emptyIntrf
  CurDevCs := 0
  pRxBuff := fun _ => 0
  RxBuffLen := fun _ => 0
  pTxData := fun _ => 0
  TxDataLen := fun _ => 0

/-- A state with all registers zero, all pins high and nothing logged. -/
def stateWith (cfg : SPICFG) : Driver where
  reg := fun _ => 0
  wlog := []
  pinLevel := fun _ _ => true
  ext := []
  spidev := deviceWith cfg
  tabSpiDev := none
  polls := 0
  rxReads := 0
  dmaChunks := 0

/-- The rate selected by the comparison chain of `STM32L4xxQSPISetRate`. -/
theorem setRate_value (k : Build) (st : Driver) (DataRate : Int) :
    (STM32L4xxQSPISetRate k st DataRate).1 =
      if DataRate < 250000 then 125000
      else if DataRate < 500000 then 250000
      else if DataRate < 1000000 then 500000
      else if DataRate < 2000000 then 1000000
      else if DataRate < 4000000 then 2000000
      else if DataRate < 8000000 then 4000000
      else if k.NRF52840_XXAA = true then
        (if DataRate < 16000000 then 8000000
         else if DataRate < 32000000 then 16000000 else 32000000)
      else 8000000 := by
  unfold STM32L4xxQSPISetRate
  split_ifs <;> rfl

/-- Membership in the ladder, spelled out. -/
theorem mem_ladder (k : Build) (x : Int) :
    x ∈ ladder k ↔
      x = 125000 ∨ x = 250000 ∨ x = 500000 ∨ x = 1000000 ∨ x = 2000000 ∨ x = 4000000 ∨
      x = 8000000 ∨ (k.NRF52840_XXAA = true ∧ (x = 16000000 ∨ x = 32000000)) := by
  unfold ladder
  cases hk : k.NRF52840_XXAA <;> simp

/-- C1 (as stated, refuted): for the request 3,000,000 the smallest ladder rung
at or above the request is 4,000,000, yet `SetRate` records and returns
2,000,000. -/
theorem setRate_3M_not_rounded_up :
    smallestRungAtLeast sampleBuild 3000000 = some 4000000 ∧
    (STM32L4xxQSPISetRate sampleBuild (stateWith sampleCfg) 3000000).1 = 2000000 ∧
    (STM32L4xxQSPISetRate sampleBuild (stateWith sampleCfg) 3000000).2.spidev.Cfg.Rate
      = 2000000 := by
  refine ⟨by decide, by decide, by decide⟩

set_option maxHeartbeats 2000000 in
/-- C1 (amended): for every requested rate strictly between the slowest and
the fastest ladder rung, `SetRate` records and returns the largest ladder rung
that does not exceed the request. -/
theorem setRate_rounds_down (k : Build) (st : Driver) (DataRate : Int)
    (hlo : slowestRung < DataRate) (hhi : DataRate < fastestRung k) :
    (STM32L4xxQSPISetRate k st DataRate).1 ∈ ladder k ∧
    (STM32L4xxQSPISetRate k st DataRate).1 ≤ DataRate ∧
    (∀ x ∈ ladder k, x ≤ DataRate → x ≤ (STM32L4xxQSPISetRate k st DataRate).1) ∧
    (STM32L4xxQSPISetRate k st DataRate).2.spidev.Cfg.Rate
      = (STM32L4xxQSPISetRate k st DataRate).1 := by
  unfold slowestRung at hlo
  unfold fastestRung at hhi
  refine ⟨?_, ?_, ?_, rfl⟩
  · rw [mem_ladder, setRate_value]
    split_ifs <;> simp_all
  · rw [setRate_value]
    split_ifs at hhi ⊢ <;> omega
  · intro x hx hle
    rw [mem_ladder] at hx
    rw [setRate_value]
    split_ifs at hhi ⊢ <;> omega

/-- Witness for `setRate_rounds_down` at the request 3,000,000. -/
theorem setRate_rounds_down_witness :
    (STM32L4xxQSPISetRate sampleBuild (stateWith sampleCfg) 3000000).1 ∈ ladder sampleBuild ∧
    (STM32L4xxQSPISetRate sampleBuild (stateWith sampleCfg) 3000000).1 ≤ 3000000 ∧
    (∀ x ∈ ladder sampleBuild, x ≤ 3000000 →
      x ≤ (STM32L4xxQSPISetRate sampleBuild (stateWith sampleCfg) 3000000).1) ∧
    (STM32L4xxQSPISetRate sampleBuild (stateWith sampleCfg) 3000000).2.spidev.Cfg.Rate
      = (STM32L4xxQSPISetRate sampleBuild (stateWith sampleCfg) 3000000).1 :=
  setRate_rounds_down sampleBuild (stateWith sampleCfg) 3000000 (by decide) (by decide)

/-- C2: a request below the slowest rung (zero and negative requests
included) yields the slowest rung, a request at or above the fastest rung
yields the fastest rung, and in both cases the returned value is the rate
recorded in the configuration. -/
theorem setRate_clamps (k : Build) (st : Driver) (DataRate : Int) :
    (DataRate < slowestRung → (STM32L4xxQSPISetRate k st DataRate).1 = slowestRung) ∧
    (fastestRung k ≤ DataRate → (STM32L4xxQSPISetRate k st DataRate).1 = fastestRung k) ∧
    (STM32L4xxQSPISetRate k st DataRate).2.spidev.Cfg.Rate
      = (STM32L4xxQSPISetRate k st DataRate).1 := by
  unfold slowestRung fastestRung
  refine ⟨?_, ?_, rfl⟩
  · intro h
    rw [setRate_value]
    split_ifs <;> omega
  · intro h
    rw [setRate_value]
    split_ifs at h ⊢ <;> omega

/-- Witness for `setRate_clamps`: a negative request and a request far above
the fastest rung. -/
theorem setRate_clamps_witness :
    (STM32L4xxQSPISetRate sampleBuild (stateWith sampleCfg) (-5)).1 = slowestRung ∧
    (STM32L4xxQSPISetRate sampleBuild (stateWith sampleCfg) 50000000).1
      = fastestRung sampleBuild :=
  ⟨(setRate_clamps sampleBuild (stateWith sampleCfg) (-5)).1 (by decide),
    (setRate_clamps sampleBuild (stateWith sampleCfg) 50000000).2.1 (by decide)⟩

/-! ## Chip-select manager: results -/

/-- In manual chip-select mode `StartTx` returns success and changes nothing. -/
theorem startTx_manual (k : Build) (st : Driver) (DevCs : Int)
    (hm : st.spidev.Cfg.ChipSel = SPICSEL.SPICSEL_MAN) :
    STM32L4xxQSPIStartTx k st DevCs = (true, st) := by
  unfold STM32L4xxQSPIStartTx
  rw [if_pos hm]

/-- In manual chip-select mode `StartRx` returns success and changes nothing. -/
theorem startRx_manual (k : Build) (st : Driver) (DevCs : Int)
    (hm : st.spidev.Cfg.ChipSel = SPICSEL.SPICSEL_MAN) :
    STM32L4xxQSPIStartRx k st DevCs = (true, st) := by
  unfold STM32L4xxQSPIStartRx
  rw [if_pos hm]

/-- Outside manual mode `StartTx` rejects an out-of-range index unchanged. -/
theorem startTx_reject (k : Build) (st : Driver) (DevCs : Int)
    (hm : st.spidev.Cfg.ChipSel ≠ SPICSEL.SPICSEL_MAN)
    (h : DevCs < 0 ∨ DevCs ≥ st.spidev.Cfg.NbIOPins - k.SPI_SS_IOPIN_IDX) :
    STM32L4xxQSPIStartTx k st DevCs = (false, st) := by
  unfold STM32L4xxQSPIStartTx
  rw [if_neg hm, if_pos h]

/-- Outside manual mode `StartRx` rejects an out-of-range index unchanged. -/
theorem startRx_reject (k : Build) (st : Driver) (DevCs : Int)
    (hm : st.spidev.Cfg.ChipSel ≠ SPICSEL.SPICSEL_MAN)
    (h : DevCs < 0 ∨ DevCs ≥ st.spidev.Cfg.NbIOPins - k.SPI_SS_IOPIN_IDX) :
    STM32L4xxQSPIStartRx k st DevCs = (false, st) := by
  unfold STM32L4xxQSPIStartRx
  rw [if_neg hm, if_pos h]

/-- What an accepted `StartTx` leaves behind, as far as chip-select handling
is concerned. -/
theorem startTx_accept (k : Build) (st : Driver) (DevCs : Int)
    (hm : st.spidev.Cfg.ChipSel ≠ SPICSEL.SPICSEL_MAN)
    (h : ¬ (DevCs < 0 ∨ DevCs ≥ st.spidev.Cfg.NbIOPins - k.SPI_SS_IOPIN_IDX)) :
    (STM32L4xxQSPIStartTx k st DevCs).1 = true ∧
    (STM32L4xxQSPIStartTx k st DevCs).2.spidev.Cfg = st.spidev.Cfg ∧
    (STM32L4xxQSPIStartTx k st DevCs).2.spidev.CurDevCs = DevCs ∧
    (STM32L4xxQSPIStartTx k st DevCs).2.pinLevel =
      (fun a b => if a = (csPin k st.spidev.Cfg DevCs).PortNo ∧
        b = (csPin k st.spidev.Cfg DevCs).PinNo then false else st.pinLevel a b) := by
  unfold STM32L4xxQSPIStartTx
  rw [if_neg hm, if_neg h]
  dsimp only
  split_ifs <;> exact ⟨rfl, rfl, rfl, rfl⟩

/-- The pin levels after `StopTx`. -/
theorem stopTx_pinLevel (k : Build) (st : Driver) :
    (STM32L4xxQSPIStopTx k st).pinLevel =
      if st.spidev.Cfg.ChipSel = SPICSEL.SPICSEL_AUTO then
        (fun a b => if a = (csPin k st.spidev.Cfg st.spidev.CurDevCs).PortNo ∧
          b = (csPin k st.spidev.Cfg st.spidev.CurDevCs).PinNo then true else st.pinLevel a b)
      else st.pinLevel := by
  unfold STM32L4xxQSPIStopTx
  dsimp only
  split_ifs <;> rfl

/-- C3 (as stated, refuted): with manual chip-select the out-of-range index
`-1` is not rejected: both `StartTx` and `StartRx` return success. -/
theorem start_manual_out_of_range_succeeds :
    sampleCfgManual.ChipSel = SPICSEL.SPICSEL_MAN ∧ ((-1 : Int) < 0) ∧
    (STM32L4xxQSPIStartTx sampleBuild (stateWith sampleCfgManual) (-1)).1 = true ∧
    (STM32L4xxQSPIStartRx sampleBuild (stateWith sampleCfgManual) (-1)).1 = true := by
  refine ⟨rfl, by decide, rfl, rfl⟩

/-- C3 (amended): for every driver state and every logical device index
outside `[0, NbIOPins - SPI_SS_IOPIN_IDX)`, `StartTx` and `StartRx` leave the
whole state as it was (no chip-select line is driven, `CurDevCs` keeps its
value); they return failure in every chip-select mode but manual, where the
index is not looked at and they return success. -/
theorem start_out_of_range (k : Build) (st : Driver) (DevCs : Int)
    (h : DevCs < 0 ∨ DevCs ≥ st.spidev.Cfg.NbIOPins - k.SPI_SS_IOPIN_IDX) :
    (STM32L4xxQSPIStartTx k st DevCs).2 = st ∧
    (STM32L4xxQSPIStartRx k st DevCs).2 = st ∧
    (STM32L4xxQSPIStartTx k st DevCs).2.pinLevel = st.pinLevel ∧
    (STM32L4xxQSPIStartRx k st DevCs).2.pinLevel = st.pinLevel ∧
    (STM32L4xxQSPIStartTx k st DevCs).2.spidev.CurDevCs = st.spidev.CurDevCs ∧
    (STM32L4xxQSPIStartRx k st DevCs).2.spidev.CurDevCs = st.spidev.CurDevCs ∧
    (st.spidev.Cfg.ChipSel ≠ SPICSEL.SPICSEL_MAN →
      (STM32L4xxQSPIStartTx k st DevCs).1 = false ∧
      (STM32L4xxQSPIStartRx k st DevCs).1 = false) ∧
    (st.spidev.Cfg.ChipSel = SPICSEL.SPICSEL_MAN →
      (STM32L4xxQSPIStartTx k st DevCs).1 = true ∧
      (STM32L4xxQSPIStartRx k st DevCs).1 = true) := by
  by_cases hm : st.spidev.Cfg.ChipSel = SPICSEL.SPICSEL_MAN
  · rw [startTx_manual k st DevCs hm, startRx_manual k st DevCs hm]
    exact ⟨rfl, rfl, rfl, rfl, rfl, rfl, fun hn => absurd hm hn, fun _ => ⟨rfl, rfl⟩⟩
  · rw [startTx_reject k st DevCs hm h, startRx_reject k st DevCs hm h]
    exact ⟨rfl, rfl, rfl, rfl, rfl, rfl, fun _ => ⟨rfl, rfl⟩, fun hn => absurd hn hm⟩

/-- Witness for `start_out_of_range`: automatic chip-select, six pins, index 3. -/
theorem start_out_of_range_witness :
    (STM32L4xxQSPIStartTx sampleBuild (stateWith sampleCfg) 3).2 = stateWith sampleCfg ∧
    (STM32L4xxQSPIStartRx sampleBuild (stateWith sampleCfg) 3).2 = stateWith sampleCfg ∧
    (STM32L4xxQSPIStartTx sampleBuild (stateWith sampleCfg) 3).1 = false ∧
    (STM32L4xxQSPIStartRx sampleBuild (stateWith sampleCfg) 3).1 = false :=
  have h := start_out_of_range sampleBuild (stateWith sampleCfg) 3 (by decide)
  ⟨h.1, h.2.1, (h.2.2.2.2.2.2.1 (by decide)).1, (h.2.2.2.2.2.2.1 (by decide)).2⟩

/-- C6: in automatic chip-select mode, for every pin state and every valid
logical index `i`, `StartTx(i)` succeeds and, followed immediately by
`StopTx()`, leaves chip-select line `i` high and every other line at the
level it had before the `StartTx` call. -/
theorem startTx_stopTx_frame (k : Build) (st : Driver) (i : Int)
    (hauto : st.spidev.Cfg.ChipSel = SPICSEL.SPICSEL_AUTO)
    (h0 : 0 ≤ i) (h1 : i < st.spidev.Cfg.NbIOPins - k.SPI_SS_IOPIN_IDX) :
    (STM32L4xxQSPIStartTx k st i).1 = true ∧
    (STM32L4xxQSPIStopTx k (STM32L4xxQSPIStartTx k st i).2).pinLevel
      (csPin k st.spidev.Cfg i).PortNo (csPin k st.spidev.Cfg i).PinNo = true ∧
    (∀ port pin : Nat,
      ¬ (port = (csPin k st.spidev.Cfg i).PortNo ∧ pin = (csPin k st.spidev.Cfg i).PinNo) →
      (STM32L4xxQSPIStopTx k (STM32L4xxQSPIStartTx k st i).2).pinLevel port pin
        = st.pinLevel port pin) := by
  have hman : st.spidev.Cfg.ChipSel ≠ SPICSEL.SPICSEL_MAN := by
    rw [hauto]; decide
  have hrange : ¬ (i < 0 ∨ i ≥ st.spidev.Cfg.NbIOPins - k.SPI_SS_IOPIN_IDX) := by
    omega
  obtain ⟨hret, hcfg, hcur, hlev⟩ := startTx_accept k st i hman hrange
  have hstop := stopTx_pinLevel k (STM32L4xxQSPIStartTx k st i).2
  rw [hcfg, hcur, hlev, if_pos hauto] at hstop
  refine ⟨hret, ?_, ?_⟩
  · rw [hstop]
    simp
  · intro port pin hne
    rw [hstop]
    simp [hne]

/-- Witness for `startTx_stopTx_frame`: automatic chip-select, index 1. -/
theorem startTx_stopTx_frame_witness :
    (STM32L4xxQSPIStartTx sampleBuild (stateWith sampleCfg) 1).1 = true ∧
    (STM32L4xxQSPIStopTx sampleBuild
      (STM32L4xxQSPIStartTx sampleBuild (stateWith sampleCfg) 1).2).pinLevel
      (csPin sampleBuild (stateWith sampleCfg).spidev.Cfg 1).PortNo
      (csPin sampleBuild (stateWith sampleCfg).spidev.Cfg 1).PinNo = true ∧
    (∀ port pin : Nat,
      ¬ (port = (csPin sampleBuild (stateWith sampleCfg).spidev.Cfg 1).PortNo ∧
         pin = (csPin sampleBuild (stateWith sampleCfg).spidev.Cfg 1).PinNo) →
      (STM32L4xxQSPIStopTx sampleBuild
        (STM32L4xxQSPIStartTx sampleBuild (stateWith sampleCfg) 1).2).pinLevel port pin
        = (stateWith sampleCfg).pinLevel port pin) :=
  startTx_stopTx_frame sampleBuild (stateWith sampleCfg) 1 rfl (by decide) (by decide)

/-- C9 (code at the failing input): in 3-wire mode with manual chip-select,
`StartTx(0)` and `StartRx(0)` return success without touching the pin-select
registers: after `StartTx` the MOSI pin-select does not hold the shared data
pin and the MISO pin-select is not disconnected, whereas `StopTx` on the same
state does remap the line. -/
theorem start_manual_3wire_no_remux :
    (STM32L4xxQSPIStartTx sampleBuild (stateWith sampleCfgManual3Wire) 0).1 = true ∧
    (STM32L4xxQSPIStartTx sampleBuild (stateWith sampleCfgManual3Wire) 0).2.reg Reg.PSELMOSI
      ≠ pselOf (pinAt sampleCfgManual3Wire sampleBuild.SPI_MISO_IOPIN_IDX) ∧
    (STM32L4xxQSPIStartTx sampleBuild (stateWith sampleCfgManual3Wire) 0).2.reg Reg.PSELMISO
      ≠ 4294967295 ∧
    (STM32L4xxQSPIStartRx sampleBuild (stateWith sampleCfgManual3Wire) 0).1 = true ∧
    (STM32L4xxQSPIStartRx sampleBuild (stateWith sampleCfgManual3Wire) 0).2.reg Reg.PSELMISO
      ≠ pselOf (pinAt sampleCfgManual3Wire sampleBuild.SPI_MISO_IOPIN_IDX) ∧
    (STM32L4xxQSPIStopTx sampleBuild (stateWith sampleCfgManual3Wire)).reg Reg.PSELMISO
      = pselOf (pinAt sampleCfgManual3Wire sampleBuild.SPI_MISO_IOPIN_IDX) ∧
    (STM32L4xxQSPIStopTx sampleBuild (stateWith sampleCfgManual3Wire)).reg Reg.PSELMOSI
      = 4294967295 := by
  refine ⟨rfl, by decide, by decide, rfl, by decide, by decide, by decide⟩

/-! ## Initialisation: results -/

/-- C4 (as stated, refuted): a null device pointer with a non-null
configuration whose device index (0) is supported and whose pin map has six
entries is none of the three listed failures, yet `SPIInit` returns false. -/
theorem init_null_device_fails :
    sampleCfg.DevNo = 0 ∧ sampleCfg.NbIOPins = 6 ∧ sampleCfg.pIOPinMap.length = 6 ∧
    (SPIInit sampleBuild (stateWith sampleCfg) none (some sampleCfg)).1 = false := by
  refine ⟨rfl, rfl, rfl, rfl⟩

/-- C4 (amended): `SPIInit` returns false, with no register written and no
driver state modified, whenever the device pointer or the configuration
pointer is null, the device index is negative or at least the supported
device count, or the pin-map length is below 6 (length 5 included); for
every other input it returns true. -/
theorem init_rejects_or_succeeds (k : Build) (st : Driver) (pDev : Option Nat)
    (pCfgData : Option SPICFG) :
    (initRejects pDev pCfgData → SPIInit k st pDev pCfgData = (false, st)) ∧
    (¬ initRejects pDev pCfgData → (SPIInit k st pDev pCfgData).1 = true) ∧
    (∀ cfg, pCfgData = some cfg → cfg.NbIOPins = 5 → SPIInit k st pDev pCfgData = (false, st)) := by
  have key : ∀ cfg, pCfgData = some cfg →
      (cfg.DevNo < 0 ∨ cfg.DevNo ≥ STM32L4XX_QSPI_MAXDEV ∨ cfg.NbIOPins < 6) →
      SPIInit k st pDev pCfgData = (false, st) := by
    intro cfg hc hbad
    subst hc
    cases pDev with
    | none => rfl
    | some a =>
      unfold SPIInit
      dsimp only
      rw [if_pos hbad]
  refine ⟨?_, ?_, ?_⟩
  · rintro (h | h | ⟨cfg, hc, hbad⟩)
    · subst h; rfl
    · subst h
      cases pDev <;> rfl
    · exact key cfg hc hbad
  · intro h
    unfold initRejects at h
    push_neg at h
    obtain ⟨hd, hc, hok⟩ := h
    cases pDev with
    | none => exact absurd rfl hd
    | some a =>
      cases pCfgData with
      | none => exact absurd rfl hc
      | some cfg =>
        have hgood := hok cfg rfl
        unfold SPIInit
        dsimp only
        rw [if_neg (by omega)]
  · intro cfg hc h5
    exact key cfg hc (Or.inr (Or.inr (by omega)))

/-- Witness for `init_rejects_or_succeeds`: a five-entry pin map is rejected
with the state untouched, the sample configuration is accepted. -/
theorem init_rejects_or_succeeds_witness :
    SPIInit sampleBuild (stateWith sampleCfg) (some 0) (some sampleCfgFivePins)
      = (false, stateWith sampleCfg) ∧
    (SPIInit sampleBuild (stateWith sampleCfg) (some 0) (some sampleCfg)).1 = true :=
  ⟨(init_rejects_or_succeeds sampleBuild (stateWith sampleCfg) (some 0)
      (some sampleCfgFivePins)).2.2 sampleCfgFivePins rfl rfl,
    (init_rejects_or_succeeds sampleBuild (stateWith sampleCfg) (some 0)
      (some sampleCfg)).2.1 (by
        unfold initRejects
        rintro (h | h | ⟨cfg, hc, hbad⟩)
        · cases h
        · cases h
        · cases hc
          revert hbad
          decide)⟩

/-! ## Readiness wait: lemmas -/

/-- A wait of budget zero looks at one observation. -/
theorem firstSet_zero (ready : Nat → Bool) (pos : Nat) :
    firstSet ready pos 0 = if ready pos = true then some 0 else none := by
  unfold firstSet
  simp [List.range_succ_eq_map, List.find?_cons]
  cases ready pos <;> simp

/-- A wait of budget `t + 1` looks at the observation at hand and then is a
wait of budget `t` from the next observation on. -/
theorem firstSet_succ (ready : Nat → Bool) (pos t : Nat) :
    firstSet ready pos (t + 1) =
      if ready pos = true then some 0 else (firstSet ready (pos + 1) t).map (fun j => j + 1) := by
  unfold firstSet
  rw [List.range_succ_eq_map (t + 1), List.find?_cons]
  cases h : ready pos
  · simp only [Nat.add_zero, h, Bool.false_eq_true, if_false, List.find?_map]
    congr 1
    apply congrArg (fun f => List.find? f (List.range (t + 1)))
    funext j
    simp [Function.comp, Nat.add_assoc, Nat.add_comm 1 j]
  · simp [h]

/-- The index `firstSet` finds is within the budget. -/
theorem firstSet_le (ready : Nat → Bool) (pos t j : Nat) (h : firstSet ready pos t = some j) :
    j ≤ t := by
  unfold firstSet at h
  have := List.mem_of_find?_eq_some h
  rw [List.mem_range] at this
  omega

/-- No observation set: the search finds nothing. -/
theorem firstSet_never (ready : Nat → Bool) (hn : ∀ i, ready i = false) (pos t : Nat) :
    firstSet ready pos t = none := by
  unfold firstSet
  rw [List.find?_eq_none]
  intro j _
  simp [hn]

/-- An observation set within the budget: the search finds one. -/
theorem firstSet_isSome (ready : Nat → Bool) (pos t : Nat)
    (h : ∃ j, j ≤ t ∧ ready (pos + j) = true) : ∃ j, firstSet ready pos t = some j := by
  obtain ⟨j, hj, hr⟩ := h
  cases hf : firstSet ready pos t with
  | some j0 => exact ⟨j0, rfl⟩
  | none =>
    unfold firstSet at hf
    rw [List.find?_eq_none] at hf
    have := hf j (List.mem_range.mpr (by omega))
    simp [hr] at this

/-- The readiness wait returns true exactly when an observation within its
budget shows the flag set, and it has then consumed the observations up to
and including that one. -/
theorem waitReady_result (p : Periph) :
    ∀ (t : Nat) (st : Driver),
      (STM32L4xxQSPIWaitReady p st t).1 = (firstSet p.ready st.polls t).isSome ∧
      (∀ j, firstSet p.ready st.polls t = some j →
        (STM32L4xxQSPIWaitReady p st t).2.polls = st.polls + j + 1) ∧
      (STM32L4xxQSPIWaitReady p st t).2.rxReads = st.rxReads := by
  intro t
  induction t with
  | zero =>
    intro st
    rw [firstSet_zero]
    unfold STM32L4xxQSPIWaitReady
    by_cases h : p.ready st.polls = true
    · rw [if_pos h, if_pos h]
      refine ⟨rfl, ?_, rfl⟩
      intro j hj
      cases hj
      rfl
    · rw [if_neg h, if_neg h]
      refine ⟨rfl, ?_, rfl⟩
      intro j hj
      cases hj
  | succ t ih =>
    intro st
    rw [firstSet_succ]
    unfold STM32L4xxQSPIWaitReady
    by_cases h : p.ready st.polls = true
    · rw [if_pos h, if_pos h]
      refine ⟨rfl, ?_, rfl⟩
      intro j hj
      cases hj
      rfl
    · rw [if_neg h, if_neg h]
      obtain ⟨h1, h2, h3⟩ := ih st.polled
      have hp : st.polled.polls = st.polls + 1 := rfl
      rw [hp] at h1 h2
      refine ⟨?_, ?_, ?_⟩
      · rw [h1]
        cases firstSet p.ready (st.polls + 1) t <;> rfl
      · intro j hj
        cases hf : firstSet p.ready (st.polls + 1) t with
        | none => rw [hf] at hj; cases hj
        | some j0 =>
          rw [hf] at hj
          simp only [Option.map_some', Option.some.injEq] at hj
          rw [h2 j0 hf]
          omega
      · rw [h3]
        rfl

/-! ## Polled transfers: results -/

/-- The wait as the polled transfers call it, on a state that has just had a
register written. -/
theorem wait_after_wr (p : Periph) (st : Driver) (r : Reg) (v t : Nat) :
    (nRF5xSPIWaitReady p (st.wr r v) t).1 = (firstSet p.ready st.polls t).isSome ∧
    (∀ j, firstSet p.ready st.polls t = some j →
      (Driver.readRXD p (nRF5xSPIWaitReady p (st.wr r v) t).2).2.polls = st.polls + j + 1) ∧
    (nRF5xSPIWaitReady p (st.wr r v) t).2.rxReads = st.rxReads := by
  obtain ⟨h1, h2, h3⟩ := waitReady_result p t (st.wr r v)
  exact ⟨h1, fun j hj => h2 j hj, h3⟩

/-- With the flag never set the receive loop stops at its first wait. -/
theorem rxLoop_never (p : Periph) (hn : ∀ i, p.ready i = false) (n : Nat) (st : Driver)
    (buf : List Nat) (i : Nat) (cnt : Int) :
    (RxDataLoop p n st buf i cnt).1 = cnt ∧ (RxDataLoop p n st buf i cnt).2.1 = buf := by
  cases n with
  | zero => exact ⟨rfl, rfl⟩
  | succ n =>
    unfold RxDataLoop
    have h := (wait_after_wr p st Reg.TXD 0xFF 100000).1
    rw [firstSet_never p.ready hn] at h
    have h0 : (nRF5xSPIWaitReady p (st.wr Reg.TXD 0xFF) 100000).1 = false := h
    rw [if_pos h0]
    exact ⟨rfl, rfl⟩

/-- With every wait succeeding the receive loop runs `n` times and stores the
received bytes at offsets `i .. i + n` of the buffer. -/
theorem rxLoop_ready (p : Periph) (hr : ∀ pos, ∃ j, j ≤ 100000 ∧ p.ready (pos + j) = true) :
    ∀ (n : Nat) (st : Driver) (buf : List Nat) (i : Nat) (cnt : Int),
      (RxDataLoop p n st buf i cnt).1 = cnt + n ∧
      ∀ m, (RxDataLoop p n st buf i cnt).2.1[m]? =
        if i ≤ m ∧ m < i + n ∧ m < buf.length then some (p.rxd (st.rxReads + (m - i)) % 256)
        else buf[m]? := by
  intro n
  induction n with
  | zero =>
    intro st buf i cnt
    refine ⟨by simp [RxDataLoop], ?_⟩
    intro m
    have : ¬ (i ≤ m ∧ m < i + 0 ∧ m < buf.length) := by omega
    rw [if_neg this]
    rfl
  | succ n ih =>
    intro st buf i cnt
    obtain ⟨h1, _, h3⟩ := wait_after_wr p st Reg.TXD 0xFF 100000
    obtain ⟨j, hj⟩ := firstSet_isSome p.ready st.polls 100000 (hr st.polls)
    rw [hj] at h1
    have hne : ¬ (nRF5xSPIWaitReady p (st.wr Reg.TXD 0xFF) 100000).1 = false := by
      rw [h1]; simp
    unfold RxDataLoop
    rw [if_neg hne]
    obtain ⟨ih1, ih2⟩ := ih
      (Driver.readRXD p (nRF5xSPIWaitReady p (st.wr Reg.TXD 0xFF) 100000).2).2
      (buf.set i ((Driver.readRXD p (nRF5xSPIWaitReady p (st.wr Reg.TXD 0xFF) 100000).2).1
        % 256)) (i + 1) (cnt + 1)
    refine ⟨?_, ?_⟩
    · rw [ih1]
      push_cast
      ring
    · intro m
      rw [ih2 m]
      have hrx : (Driver.readRXD p
          (nRF5xSPIWaitReady p (st.wr Reg.TXD 0xFF) 100000).2).2.rxReads = st.rxReads + 1 := by
        show (nRF5xSPIWaitReady p (st.wr Reg.TXD 0xFF) 100000).2.rxReads + 1 = st.rxReads + 1
        rw [h3]
      have hv : (Driver.readRXD p
          (nRF5xSPIWaitReady p (st.wr Reg.TXD 0xFF) 100000).2).1 = p.rxd st.rxReads := by
        show p.rxd (nRF5xSPIWaitReady p (st.wr Reg.TXD 0xFF) 100000).2.rxReads = p.rxd st.rxReads
        rw [h3]
      rw [hrx, hv, List.length_set, List.getElem?_set]
      by_cases hm : i = m
      · subst hm
        by_cases hl : i < buf.length
        · have c1 : ¬ (i + 1 ≤ i ∧ i < i + 1 + n ∧ i < buf.length) := by omega
          have c2 : i ≤ i ∧ i < i + (n + 1) ∧ i < buf.length := by omega
          rw [if_neg c1, if_pos c2, if_pos rfl, if_pos hl]
          simp
        · have c1 : ¬ (i + 1 ≤ i ∧ i < i + 1 + n ∧ i < buf.length) := by omega
          have c2 : ¬ (i ≤ i ∧ i < i + (n + 1) ∧ i < buf.length) := by omega
          rw [if_neg c1, if_neg c2, if_pos rfl, if_neg hl]
          exact (List.getElem?_eq_none (by omega)).symm
      · by_cases hc : i + 1 ≤ m ∧ m < i + 1 + n ∧ m < buf.length
        · have c2 : i ≤ m ∧ m < i + (n + 1) ∧ m < buf.length := by omega
          have e : st.rxReads + 1 + (m - (i + 1)) = st.rxReads + (m - i) := by omega
          rw [if_pos hc, if_pos c2, e]
        · have c2 : ¬ (i ≤ m ∧ m < i + (n + 1) ∧ m < buf.length) := by omega
          rw [if_neg hc, if_neg c2, if_neg hm]

/-- C5: for every buffer and length `N ≥ 0`, polled `RxData` returns 0 and
leaves the buffer as it was when the readiness flag is never set; when every
wait sees the flag set within its budget it returns `N`, and then the first
`N` bytes of a buffer of at least `N` bytes are the `N` bytes received, the
bytes beyond them untouched. -/
theorem rxData_polled (p : Periph) (st : Driver) (buf : List Nat) (N : Nat) :
    ((∀ i, p.ready i = false) →
      (STM32L4xxQSPIRxData p st buf N).1 = 0 ∧ (STM32L4xxQSPIRxData p st buf N).2.1 = buf) ∧
    ((∀ pos, ∃ j, j ≤ 100000 ∧ p.ready (pos + j) = true) →
      (STM32L4xxQSPIRxData p st buf N).1 = N ∧
      (N ≤ buf.length → ∀ m, m < N →
        (STM32L4xxQSPIRxData p st buf N).2.1[m]? = some (p.rxd (st.rxReads + m) % 256)) ∧
      (∀ m, N ≤ m → (STM32L4xxQSPIRxData p st buf N).2.1[m]? = buf[m]?)) := by
  unfold STM32L4xxQSPIRxData
  rw [Int.toNat_ofNat]
  refine ⟨fun hn => rxLoop_never p hn N _ buf 0 0, ?_⟩
  intro hr
  obtain ⟨h1, h2⟩ := rxLoop_ready p hr N (st.wr Reg.EVENTS_READY 0) buf 0 0
  refine ⟨by rw [h1]; simp, ?_, ?_⟩
  · intro hlen m hm
    rw [h2 m, if_pos (by omega)]
    rfl
  · intro m hm
    rw [h2 m, if_neg (by omega)]

/-- Witness for `rxData_polled`: four bytes requested from a peripheral that
never signals readiness, and from one that always does. -/
theorem rxData_polled_witness :
    ((STM32L4xxQSPIRxData silentPeriph (stateWith sampleCfg) [9, 9, 9, 9] (4 : Nat)).1 = 0 ∧
      (STM32L4xxQSPIRxData silentPeriph (stateWith sampleCfg) [9, 9, 9, 9] (4 : Nat)).2.1
        = [9, 9, 9, 9]) ∧
    (STM32L4xxQSPIRxData promptPeriph (stateWith sampleCfg) [9, 9, 9, 9] (4 : Nat)).1
      = (4 : Nat) :=
  ⟨(rxData_polled silentPeriph (stateWith sampleCfg) [9, 9, 9, 9] 4).1 (fun _ => rfl),
    ((rxData_polled promptPeriph (stateWith sampleCfg) [9, 9, 9, 9] 4).2
      (fun _ => ⟨0, by decide, rfl⟩)).1⟩

/-- The count of the spec when the first wait times out. -/
theorem bytesBeforeTimeout_succ_none (ready : Nat → Bool) (budget n pos : Nat)
    (h : firstSet ready pos budget = none) :
    bytesBeforeTimeout ready budget (n + 1) pos = 0 := by
  rw [bytesBeforeTimeout, h]

/-- The count of the spec when the first wait succeeds at observation `j`. -/
theorem bytesBeforeTimeout_succ_some (ready : Nat → Bool) (budget n pos j : Nat)
    (h : firstSet ready pos budget = some j) :
    bytesBeforeTimeout ready budget (n + 1) pos
      = 1 + bytesBeforeTimeout ready budget n (pos + j + 1) := by
  rw [bytesBeforeTimeout, h]

/-- The count of the spec never exceeds the number of bytes requested. -/
theorem bytesBeforeTimeout_le (ready : Nat → Bool) (budget : Nat) :
    ∀ (n pos : Nat), bytesBeforeTimeout ready budget n pos ≤ n := by
  intro n
  induction n with
  | zero => intro pos; simp [bytesBeforeTimeout]
  | succ n ih =>
    intro pos
    unfold bytesBeforeTimeout
    cases firstSet ready pos budget with
    | none => simp
    | some j =>
      have := ih (pos + j + 1)
      simp only
      omega

/-- When every wait succeeds the count of the spec is the number requested. -/
theorem bytesBeforeTimeout_all (ready : Nat → Bool) (budget : Nat)
    (hr : ∀ pos, ∃ j, j ≤ budget ∧ ready (pos + j) = true) :
    ∀ (n pos : Nat), bytesBeforeTimeout ready budget n pos = n := by
  intro n
  induction n with
  | zero => intro pos; simp [bytesBeforeTimeout]
  | succ n ih =>
    intro pos
    obtain ⟨j, hj⟩ := firstSet_isSome ready pos budget (hr pos)
    unfold bytesBeforeTimeout
    rw [hj]
    simp only
    rw [ih]
    omega

/-- The transmit loop counts the bytes moved before the first wait that
times out. -/
theorem txLoop_count (p : Periph) :
    ∀ (n : Nat) (st : Driver) (data : List Nat) (i : Nat) (cnt : Int),
      (TxDataLoop p n st data i cnt).1 = cnt + bytesBeforeTimeout p.ready 10000 n st.polls := by
  intro n
  induction n with
  | zero => intro st data i cnt; simp [TxDataLoop, bytesBeforeTimeout]
  | succ n ih =>
    intro st data i cnt
    obtain ⟨h1, h2, _⟩ := wait_after_wr p st Reg.TXD (data.getD i 0) 10000
    unfold TxDataLoop bytesBeforeTimeout
    cases hf : firstSet p.ready st.polls 10000 with
    | none =>
      rw [hf] at h1
      have h0 : (nRF5xSPIWaitReady p (st.wr Reg.TXD (data.getD i 0)) 10000).1 = false := h1
      rw [if_pos h0]
      simp
    | some j =>
      rw [hf] at h1
      have hne : ¬ (nRF5xSPIWaitReady p (st.wr Reg.TXD (data.getD i 0)) 10000).1 = false := by
        rw [h1]; simp
      rw [if_neg hne, ih, h2 j hf]
      simp only
      push_cast
      ring

/-! ## Slave acquire/release: results -/

/-- Register contents after a store. -/
theorem wr_reg (st : Driver) (r : Reg) (v : Nat) (r' : Reg) :
    (st.wr r v).reg r' = if r' = r then v % 4294967296 else st.reg r' := rfl

/-- The write sequence after a store. -/
theorem wr_wlog (st : Driver) (r : Reg) (v : Nat) :
    (st.wr r v).wlog = st.wlog ++ [(r, v % 4294967296)] := rfl

/-- Counting writes distributes over concatenation. -/
theorem writesTo_append (r : Reg) (a b : List (Reg × Nat)) :
    writesTo r (a ++ b) = writesTo r a + writesTo r b := by
  unfold writesTo
  rw [List.filter_append, List.length_append]

/-- Counting writes in a single store. -/
theorem writesTo_single (r r' : Reg) (v : Nat) :
    writesTo r [(r', v)] = if r' = r then 1 else 0 := by
  unfold writesTo
  by_cases h : r' = r <;> simp [List.filter, h]

/-- Counting writes, one store at a time. -/
theorem writesTo_cons (r r' : Reg) (v : Nat) (l : List (Reg × Nat)) :
    writesTo r ((r', v) :: l) = (if r' = r then 1 else 0) + writesTo r l := by
  unfold writesTo
  by_cases h : r' = r <;> simp [List.filter, h, Nat.add_comm]

/-- No store, no write. -/
theorem writesTo_nil (r : Reg) : writesTo r [] = 0 := rfl

/-- The write sequence after a store of a C `int`. -/
theorem wrInt_wlog (st : Driver) (r : Reg) (v : Int) :
    (st.wrInt r v).wlog = st.wlog ++ [(r, (v % 4294967296).toNat)] := by
  unfold Driver.wrInt
  rw [wr_wlog]
  have : (v % 4294967296).toNat % 4294967296 = (v % 4294967296).toNat := by
    apply Nat.mod_eq_of_lt
    omega
  rw [this]

/-- The start tasks among the writes of a sequence of chunks: one per chunk. -/
theorem writesTo_start_allChunks (ls : List Nat) :
    writesTo Reg.DMA_TASKS_START (allChunkWrites ls) = ls.length := by
  induction ls with
  | nil => rfl
  | cons l ls ih =>
    unfold allChunkWrites
    rw [writesTo_append, ih]
    simp [chunkWrites, writesTo_cons, writesTo_nil, Nat.add_comm]

/-- The setup writes before the loop hold no start task. -/
theorem writesTo_start_setup (k : Build) (pData : Nat) :
    writesTo Reg.DMA_TASKS_START (dmaSetupWrites k pData) = 0 := by
  simp [dmaSetupWrites, writesTo_cons, writesTo_nil]

/-- The programmed chunk length is bounded by the maximum chunk size. -/
theorem chunkLen_le (k : Build) (DataLen : Int) (h : 0 < DataLen) :
    chunkLen k DataLen ≤ k.NRF5X_SPI_DMA_MAXCNT := by
  unfold chunkLen
  have h1 : min DataLen (k.NRF5X_SPI_DMA_MAXCNT : Int) ≤ k.NRF5X_SPI_DMA_MAXCNT :=
    min_le_right _ _
  have h2 : 0 ≤ min DataLen (k.NRF5X_SPI_DMA_MAXCNT : Int) := by
    apply le_min <;> omega
  generalize min DataLen (k.NRF5X_SPI_DMA_MAXCNT : Int) = x at h1 h2 ⊢
  omega

/-- The head of an iteration appends the writes of one chunk and changes
nothing the peripheral indexes its answers by. -/
theorem dmaChunkStart_effect (k : Build) (st : Driver) (DataLen : Int) :
    (dmaChunkStart k st DataLen).wlog = st.wlog ++ chunkWrites (chunkLen k DataLen) ∧
    (dmaChunkStart k st DataLen).dmaChunks = st.dmaChunks := by
  refine ⟨?_, rfl⟩
  unfold dmaChunkStart chunkWrites chunkLen
  simp [wr_wlog, wrInt_wlog]

/-- The completion wait as the loop calls it, after the head of an iteration. -/
theorem waitDMA_effect (k : Build) (p : Periph) (st : Driver) (DataLen : Int) :
    (nRF52SPIWaitDMA p (dmaChunkStart k st DataLen) 100000).1 = p.dmaDone st.dmaChunks ∧
    (nRF52SPIWaitDMA p (dmaChunkStart k st DataLen) 100000).2.wlog
      = st.wlog ++ chunkWrites (chunkLen k DataLen) ∧
    (nRF52SPIWaitDMA p (dmaChunkStart k st DataLen) 100000).2.dmaChunks = st.dmaChunks + 1 := by
  obtain ⟨h1, h2⟩ := dmaChunkStart_effect k st DataLen
  refine ⟨?_, ?_, ?_⟩
  · show p.dmaDone (dmaChunkStart k st DataLen).dmaChunks = _
    rw [h2]
  · show (dmaChunkStart k st DataLen).wlog = _
    rw [h1]
  · show (dmaChunkStart k st DataLen).dmaChunks + 1 = _
    rw [h2]

/-- The sum of the reported amounts, the last chunk split off. -/
theorem sumReported_last (p : Periph) :
    ∀ (n c : Nat), sumReported p c (n + 1) = sumReported p c n + reportedAmount p (c + n) := by
  intro n
  induction n with
  | zero => intro c; simp [sumReported]
  | succ n ih =>
    intro c
    have e1 : sumReported p c (n + 1 + 1)
        = reportedAmount p c + sumReported p (c + 1) (n + 1) := rfl
    have e2 : sumReported p c (n + 1) = reportedAmount p c + sumReported p (c + 1) n := rfl
    have e3 : c + 1 + n = c + (n + 1) := by omega
    rw [e1, ih (c + 1), e2, e3]
    ring

/-- The run of the DMA loop, chunk by chunk: whenever it returns, chunk `i`
was started with a positive remaining length and programmed with the chunk
length for that remainder, every wait but possibly the last succeeded, and
the loop ended either on a wait that timed out or with nothing left to send. -/
theorem dmaLoop_trace (k : Build) (p : Periph) :
    ∀ (fuel : Nat) (st : Driver) (DataLen cnt r : Int) (st' : Driver),
      TxDataDmaLoop k p fuel st DataLen cnt = some (r, st') →
      ∃ ls : List Nat,
        st'.wlog = st.wlog ++ allChunkWrites ls ∧
        st'.dmaChunks = st.dmaChunks + ls.length ∧
        (∀ l ∈ ls, l ≤ k.NRF5X_SPI_DMA_MAXCNT) ∧
        (∀ i, i < ls.length →
          ls[i]? = some (chunkLen k (DataLen - sumReported p st.dmaChunks i)) ∧
          0 < DataLen - sumReported p st.dmaChunks i) ∧
        (∀ i, i + 1 < ls.length → p.dmaDone (st.dmaChunks + i) = true) ∧
        r = cnt + sumReported p st.dmaChunks ls.length ∧
        ((∀ i, i < ls.length → p.dmaDone (st.dmaChunks + i) = true) →
          DataLen - sumReported p st.dmaChunks ls.length ≤ 0) := by
  intro fuel
  induction fuel with
  | zero =>
    intro st DataLen cnt r st' h
    unfold TxDataDmaLoop at h
    by_cases hd : DataLen > 0
    · rw [if_pos hd] at h
      cases h
    · rw [if_neg hd] at h
      cases h
      refine ⟨[], by simp [allChunkWrites], rfl, by simp, ?_, ?_, by simp [sumReported], ?_⟩
      · intro i hi; simp at hi
      · intro i hi; simp at hi
      · intro _
        simp only [List.length_nil, sumReported]
        omega
  | succ fuel ih =>
    intro st DataLen cnt r st' h
    unfold TxDataDmaLoop at h
    by_cases hd : DataLen > 0
    · rw [if_pos hd] at h
      obtain ⟨w1, w2, w3⟩ := waitDMA_effect k p st DataLen
      by_cases hw : (nRF52SPIWaitDMA p (dmaChunkStart k st DataLen) 100000).1 = false
      · rw [if_pos hw] at h
        cases h
        rw [w1] at hw
        refine ⟨[chunkLen k DataLen], ?_, ?_, ?_, ?_, ?_, ?_, ?_⟩
        · rw [w2]; simp [allChunkWrites]
        · rw [w3]; rfl
        · intro l hl
          rw [List.mem_singleton] at hl
          rw [hl]
          exact chunkLen_le k DataLen hd
        · intro i hi
          have hi0 : i = 0 := by simpa using hi
          subst hi0
          have e : DataLen - sumReported p st.dmaChunks 0 = DataLen := by
            simp [sumReported]
          rw [e]
          exact ⟨rfl, hd⟩
        · intro i hi
          simp at hi
        · simp [sumReported, reportedAmount, hw]
        · intro hall
          have := hall 0 (by simp)
          rw [Nat.add_zero, hw] at this
          cases this
      · rw [if_neg hw] at h
        rw [w1] at hw
        have hw1 : p.dmaDone st.dmaChunks = true := by
          cases hx : p.dmaDone st.dmaChunks
          · exact absurd hx hw
          · rfl
        have ha : reportedAmount p st.dmaChunks = toInt32 (p.txAmount st.dmaChunks) := by
          simp [reportedAmount, hw1]
        obtain ⟨ls, l1, l2, l3, l4, l5, l6, l7⟩ := ih _ _ _ _ _ h
        rw [w3] at l2 l4 l5 l6 l7
        have hsum : ∀ j, sumReported p st.dmaChunks (j + 1)
            = toInt32 (p.txAmount st.dmaChunks) + sumReported p (st.dmaChunks + 1) j := by
          intro j
          rw [← ha]
          rfl
        refine ⟨chunkLen k DataLen :: ls, ?_, ?_, ?_, ?_, ?_, ?_, ?_⟩
        · rw [l1, w2]; simp [allChunkWrites]
        · rw [l2, List.length_cons]; omega
        · intro l hl
          rw [List.mem_cons] at hl
          rcases hl with hl | hl
          · rw [hl]; exact chunkLen_le k DataLen hd
          · exact l3 l hl
        · intro i hi
          cases i with
          | zero =>
            have e : DataLen - sumReported p st.dmaChunks 0 = DataLen := by
              simp [sumReported]
            rw [e]
            exact ⟨List.getElem?_cons_zero, hd⟩
          | succ j =>
            have hj : j < ls.length := by
              rw [List.length_cons] at hi; omega
            obtain ⟨q1, q2⟩ := l4 j hj
            have e : DataLen - sumReported p st.dmaChunks (j + 1)
                = DataLen - toInt32 (p.txAmount st.dmaChunks)
                  - sumReported p (st.dmaChunks + 1) j := by
              rw [hsum]; omega
            rw [e, List.getElem?_cons_succ]
            exact ⟨q1, q2⟩
        · intro i hi
          cases i with
          | zero => exact hw1
          | succ j =>
            have hj : j + 1 < ls.length := by
              rw [List.length_cons] at hi; omega
            have := l5 j hj
            have e : st.dmaChunks + (j + 1) = st.dmaChunks + 1 + j := by omega
            rw [e]
            exact this
        · rw [l6, List.length_cons, hsum]
          ring
        · intro hall
          have h7 := l7 (by
            intro i hi
            have := hall (i + 1) (by rw [List.length_cons]; omega)
            have e : st.dmaChunks + (i + 1) = st.dmaChunks + 1 + i := by omega
            rw [e] at this
            exact this)
          rw [List.length_cons, hsum]
          omega
    · rw [if_neg hd] at h
      cases h
      refine ⟨[], by simp [allChunkWrites], rfl, by simp, ?_, ?_, by simp [sumReported], ?_⟩
      · intro i hi; simp at hi
      · intro i hi; simp at hi
      · intro _
        simp only [List.length_nil, sumReported]
        omega

/-- One chunk less to go: the chunk count of the spec after one full chunk. -/
theorem ceilDiv_step (n m : Nat) (hm : 0 < m) (hn : 0 < n) :
    ceilDiv n m = ceilDiv (n - min n m) m + 1 := by
  unfold ceilDiv
  by_cases h : n ≤ m
  · rw [min_eq_left h, Nat.sub_self]
    have e1 : (0 + m - 1) / m = 0 := Nat.div_eq_of_lt (by omega)
    have e2 : (n + m - 1) / m = 1 := by
      apply Nat.div_eq_of_lt_le
      · omega
      · omega
    rw [e1, e2]
  · have hmin : min n m = m := min_eq_right (by omega)
    rw [hmin]
    have e : n + m - 1 = (n - m + m - 1) + m := by omega
    rw [e, Nat.add_div_right _ hm]

/-- Nothing to send, no chunk. -/
theorem ceilDiv_zero (m : Nat) (hm : 0 < m) : ceilDiv 0 m = 0 := by
  unfold ceilDiv
  exact Nat.div_eq_of_lt (by omega)

/-- When every completion wait succeeds and every chunk is reported as
transferred in full, the DMA loop returns, given at least `ceil(n / max)`
iterations, having moved all `n` bytes in exactly that many chunks. -/
theorem dmaLoop_full (k : Build) (p : Periph) (hm : 0 < k.NRF5X_SPI_DMA_MAXCNT) :
    ∀ (fuel : Nat) (st : Driver) (n : Nat) (cnt : Int),
      (∀ j, j * k.NRF5X_SPI_DMA_MAXCNT < n →
        p.dmaDone (st.dmaChunks + j) = true ∧
        toInt32 (p.txAmount (st.dmaChunks + j))
          = ((min (n - j * k.NRF5X_SPI_DMA_MAXCNT) k.NRF5X_SPI_DMA_MAXCNT : Nat) : Int)) →
      ceilDiv n k.NRF5X_SPI_DMA_MAXCNT ≤ fuel →
      ∃ st', TxDataDmaLoop k p fuel st n cnt = some (cnt + n, st') ∧
        st'.dmaChunks = st.dmaChunks + ceilDiv n k.NRF5X_SPI_DMA_MAXCNT := by
  intro fuel
  induction fuel with
  | zero =>
    intro st n cnt _ hf
    have hn : n = 0 := by
      by_contra hne
      have := ceilDiv_step n _ hm (Nat.pos_of_ne_zero hne)
      omega
    subst hn
    refine ⟨st, ?_, ?_⟩
    · unfold TxDataDmaLoop
      simp
    · rw [ceilDiv_zero _ hm]; rfl
  | succ fuel ih =>
    intro st n cnt hp hf
    by_cases hn : n = 0
    · subst hn
      refine ⟨st, ?_, ?_⟩
      · unfold TxDataDmaLoop
        simp
      · rw [ceilDiv_zero _ hm]; rfl
    · have hpos : 0 < n := Nat.pos_of_ne_zero hn
      have hstep := ceilDiv_step n _ hm hpos
      obtain ⟨hd0, ha0⟩ := hp 0 (by simpa using hpos)
      simp only [Nat.add_zero, Nat.zero_mul, Nat.sub_zero] at hd0 ha0
      obtain ⟨w1, _, w3⟩ := waitDMA_effect k p st (n : Int)
      have hw : ¬ (nRF52SPIWaitDMA p (dmaChunkStart k st (n : Int)) 100000).1 = false := by
        rw [w1, hd0]; simp
      have hlen : ((n : Int) > 0) := by exact_mod_cast hpos
      have hsub : (n : Int) - ((min n k.NRF5X_SPI_DMA_MAXCNT : Nat) : Int)
          = ((n - min n k.NRF5X_SPI_DMA_MAXCNT : Nat) : Int) := by
        rw [Nat.cast_sub (min_le_left _ _)]
      obtain ⟨st', r1, r2⟩ := ih
        (nRF52SPIWaitDMA p (dmaChunkStart k st (n : Int)) 100000).2
        (n - min n k.NRF5X_SPI_DMA_MAXCNT)
        (cnt + ((min n k.NRF5X_SPI_DMA_MAXCNT : Nat) : Int))
        (by
          intro j hj
          rw [w3]
          by_cases hle : n ≤ k.NRF5X_SPI_DMA_MAXCNT
          · rw [min_eq_left hle, Nat.sub_self] at hj
            omega
          · have hmin : min n k.NRF5X_SPI_DMA_MAXCNT = k.NRF5X_SPI_DMA_MAXCNT :=
              min_eq_right (by omega)
            rw [hmin] at hj ⊢
            have hj1 : (j + 1) * k.NRF5X_SPI_DMA_MAXCNT < n := by
              rw [Nat.add_mul, Nat.one_mul]; omega
            obtain ⟨q1, q2⟩ := hp (j + 1) hj1
            have e1 : st.dmaChunks + 1 + j = st.dmaChunks + (j + 1) := by omega
            have e2 : n - k.NRF5X_SPI_DMA_MAXCNT - j * k.NRF5X_SPI_DMA_MAXCNT
                = n - (j + 1) * k.NRF5X_SPI_DMA_MAXCNT := by
              rw [Nat.add_mul, Nat.one_mul]; omega
            rw [e1, e2]
            exact ⟨q1, q2⟩)
        (by omega)
      refine ⟨st', ?_, ?_⟩
      · unfold TxDataDmaLoop
        rw [if_pos hlen, if_neg hw, ha0, hsub, r1]
        congr 2
        have : ((n - min n k.NRF5X_SPI_DMA_MAXCNT : Nat) : Int)
            = (n : Int) - ((min n k.NRF5X_SPI_DMA_MAXCNT : Nat) : Int) := hsub.symm
        rw [this]
        ring
      · rw [r2, w3, hstep]
        omega

/-- When every completed chunk is reported with a positive amount, the DMA
loop returns within as many iterations as there are bytes to send. -/
theorem dmaLoop_returns (k : Build) (p : Periph)
    (hp : ∀ i, p.dmaDone i = true → 1 ≤ toInt32 (p.txAmount i)) :
    ∀ (fuel : Nat) (st : Driver) (DataLen cnt : Int), DataLen ≤ fuel →
      ∃ r st', TxDataDmaLoop k p fuel st DataLen cnt = some (r, st') := by
  intro fuel
  induction fuel with
  | zero =>
    intro st DataLen cnt h
    unfold TxDataDmaLoop
    rw [if_neg (by simpa using h)]
    exact ⟨_, _, rfl⟩
  | succ fuel ih =>
    intro st DataLen cnt h
    unfold TxDataDmaLoop
    by_cases hd : DataLen > 0
    · rw [if_pos hd]
      by_cases hw : (nRF52SPIWaitDMA p (dmaChunkStart k st DataLen) 100000).1 = false
      · rw [if_pos hw]
        exact ⟨_, _, rfl⟩
      · rw [if_neg hw]
        apply ih
        have w1 := (waitDMA_effect k p st DataLen).1
        rw [w1] at hw
        have hw1 : p.dmaDone st.dmaChunks = true := by
          cases hx : p.dmaDone st.dmaChunks
          · exact absurd hx hw
          · rfl
        have := hp _ hw1
        push_cast at h
        omega
    · rw [if_neg hd]
      exact ⟨_, _, rfl⟩

/-- The state the DMA transmit loop starts from: the setup writes appended,
the chunk index untouched. -/
theorem dmaSetup_effect (k : Build) (st : Driver) (pData : Nat) :
    (((((st.wr Reg.DMA_RXD_PTR 0).wr Reg.DMA_RXD_MAXCNT 0).wr Reg.DMA_RXD_LIST 0).wr
      Reg.DMA_TXD_PTR pData).wr Reg.DMA_TXD_LIST
        (k.SPIM_TXD_LIST_LIST_ArrayList <<< k.SPIM_TXD_LIST_LIST_Pos)).wlog
      = st.wlog ++ dmaSetupWrites k pData := by
  simp [wr_wlog, dmaSetupWrites]

/-- C7 (as stated, refuted): with a maximum chunk size of 255 and a length of
510 the spec's chunk count is 2, yet when the first completion wait times out
`TxDataDma` returns after one start task (count 0); and in a build without
`NRF52_SERIES` it returns 0 without any start task, whatever the peripheral
does. -/
theorem txDataDma_timeout_one_start :
    sampleBuildDma.NRF5X_SPI_DMA_MAXCNT = 255 ∧ ceilDiv 510 255 = 2 ∧
    (STM32L4xxQSPITxDataDma sampleBuildDma silentPeriph (stateWith sampleCfg) 0 510 2).map
      (fun x => (x.1, writesTo Reg.DMA_TASKS_START x.2.wlog)) = some (0, 1) ∧
    (STM32L4xxQSPITxDataDma sampleBuild promptPeriph (stateWith sampleCfg) 0 510 2).map
      (fun x => (x.1, writesTo Reg.DMA_TASKS_START x.2.wlog)) = some (0, 0) := by
  refine ⟨rfl, by decide, by decide, by decide⟩

/-- C7 (amended): in a build with `NRF52_SERIES`, for every data length
greater than the maximum chunk size: whenever `TxDataDma` returns, it has
issued one start task per chunk started (at least one), each preceded by the
programmed chunk length for the length then remaining, at most the maximum;
every completion wait before the last succeeded, so the loop stops at the
first wait that times out and starts no chunk after it; the total it returns
is the sum of the amounts the hardware reported for the chunks whose wait
succeeded, less than the requested length when a wait timed out and at least
the requested length otherwise.  It does return when every completed chunk
is reported with a positive amount; and when every wait succeeds and every
chunk is reported in full it issues exactly `ceil(length / maxChunk)` start
tasks and returns the length. -/
theorem txDataDma_chunks (k : Build) (p : Periph) (st : Driver) (pData n : Nat)
    (hflag : k.NRF52_SERIES = true) (hm : 0 < k.NRF5X_SPI_DMA_MAXCNT)
    (hn : k.NRF5X_SPI_DMA_MAXCNT < n) :
    (∀ (fuel : Nat) (r : Int) (st' : Driver),
      STM32L4xxQSPITxDataDma k p st pData n fuel = some (r, st') →
      ∃ ls : List Nat,
        st'.wlog = st.wlog ++ dmaSetupWrites k pData ++ allChunkWrites ls ∧
        (∀ l ∈ ls, l ≤ k.NRF5X_SPI_DMA_MAXCNT) ∧
        writesTo Reg.DMA_TASKS_START st'.wlog
          = writesTo Reg.DMA_TASKS_START st.wlog + ls.length ∧
        st'.dmaChunks = st.dmaChunks + ls.length ∧
        r = sumReported p st.dmaChunks ls.length ∧
        1 ≤ ls.length ∧
        (∀ i, i < ls.length →
          ls[i]? = some (chunkLen k ((n : Int) - sumReported p st.dmaChunks i)) ∧
          0 < (n : Int) - sumReported p st.dmaChunks i) ∧
        (∀ i, i + 1 < ls.length → p.dmaDone (st.dmaChunks + i) = true) ∧
        ((∃ i, i < ls.length ∧ p.dmaDone (st.dmaChunks + i) = false) → r < (n : Int)) ∧
        ((∀ i, i < ls.length → p.dmaDone (st.dmaChunks + i) = true) → (n : Int) ≤ r)) ∧
    ((∀ i, p.dmaDone i = true → 1 ≤ toInt32 (p.txAmount i)) →
      ∀ fuel, n ≤ fuel →
        ∃ r st', STM32L4xxQSPITxDataDma k p st pData n fuel = some (r, st')) ∧
    ((∀ j, j * k.NRF5X_SPI_DMA_MAXCNT < n →
        p.dmaDone (st.dmaChunks + j) = true ∧
        toInt32 (p.txAmount (st.dmaChunks + j))
          = ((min (n - j * k.NRF5X_SPI_DMA_MAXCNT) k.NRF5X_SPI_DMA_MAXCNT : Nat) : Int)) →
      ∀ fuel, ceilDiv n k.NRF5X_SPI_DMA_MAXCNT ≤ fuel →
        ∃ st', STM32L4xxQSPITxDataDma k p st pData n fuel = some ((n : Int), st') ∧
          writesTo Reg.DMA_TASKS_START st'.wlog
            = writesTo Reg.DMA_TASKS_START st.wlog + ceilDiv n k.NRF5X_SPI_DMA_MAXCNT) := by
  have hgen : ∀ (fuel : Nat) (r : Int) (st' : Driver),
      STM32L4xxQSPITxDataDma k p st pData n fuel = some (r, st') →
      ∃ ls : List Nat,
        st'.wlog = st.wlog ++ dmaSetupWrites k pData ++ allChunkWrites ls ∧
        (∀ l ∈ ls, l ≤ k.NRF5X_SPI_DMA_MAXCNT) ∧
        writesTo Reg.DMA_TASKS_START st'.wlog
          = writesTo Reg.DMA_TASKS_START st.wlog + ls.length ∧
        st'.dmaChunks = st.dmaChunks + ls.length ∧
        r = sumReported p st.dmaChunks ls.length ∧
        1 ≤ ls.length ∧
        (∀ i, i < ls.length →
          ls[i]? = some (chunkLen k ((n : Int) - sumReported p st.dmaChunks i)) ∧
          0 < (n : Int) - sumReported p st.dmaChunks i) ∧
        (∀ i, i + 1 < ls.length → p.dmaDone (st.dmaChunks + i) = true) ∧
        ((∃ i, i < ls.length ∧ p.dmaDone (st.dmaChunks + i) = false) → r < (n : Int)) ∧
        ((∀ i, i < ls.length → p.dmaDone (st.dmaChunks + i) = true) → (n : Int) ≤ r) := by
    intro fuel r st' h
    unfold STM32L4xxQSPITxDataDma at h
    rw [if_pos hflag] at h
    obtain ⟨ls, l1, l2, l3, l4, l5, l6, l7⟩ := dmaLoop_trace k p _ _ _ _ _ _ h
    rw [dmaSetup_effect] at l1
    have hc : (((((st.wr Reg.DMA_RXD_PTR 0).wr Reg.DMA_RXD_MAXCNT 0).wr Reg.DMA_RXD_LIST 0).wr
        Reg.DMA_TXD_PTR pData).wr Reg.DMA_TXD_LIST
          (k.SPIM_TXD_LIST_LIST_ArrayList <<< k.SPIM_TXD_LIST_LIST_Pos)).dmaChunks
        = st.dmaChunks := rfl
    rw [hc] at l2 l4 l5 l6 l7
    have hr : r = sumReported p st.dmaChunks ls.length := by
      rw [l6]; simp
    have hnpos : (0 : Int) < (n : Int) := by
      have : 0 < n := by omega
      exact_mod_cast this
    have hlen : 1 ≤ ls.length := by
      by_contra hlt
      have h0 : ls.length = 0 := by omega
      have := l7 (by intro i hi; omega)
      rw [h0] at this
      simp only [sumReported] at this
      omega
    refine ⟨ls, l1, l3, ?_, l2, hr, hlen, l4, l5, ?_, ?_⟩
    · rw [l1, writesTo_append, writesTo_append, writesTo_start_setup,
        writesTo_start_allChunks]
      omega
    · rintro ⟨i, hi, hfalse⟩
      have hlast : i + 1 = ls.length := by
        by_contra hne
        have := l5 i (by omega)
        rw [hfalse] at this
        cases this
      have hpos := (l4 i hi).2
      have hz : reportedAmount p (st.dmaChunks + i) = 0 := by
        simp [reportedAmount, hfalse]
      rw [hr, ← hlast, sumReported_last, hz]
      omega
    · intro hall
      have := l7 hall
      rw [hr]
      omega
  refine ⟨hgen, ?_, ?_⟩
  · intro hp fuel hf
    unfold STM32L4xxQSPITxDataDma
    rw [if_pos hflag]
    exact dmaLoop_returns k p hp fuel _ _ _ (by exact_mod_cast hf)
  · intro hp fuel hf
    have hrun : ∃ st', STM32L4xxQSPITxDataDma k p st pData n fuel = some ((n : Int), st') ∧
        st'.dmaChunks = st.dmaChunks + ceilDiv n k.NRF5X_SPI_DMA_MAXCNT := by
      unfold STM32L4xxQSPITxDataDma
      rw [if_pos hflag]
      obtain ⟨st', r1, r2⟩ := dmaLoop_full k p hm fuel
        (((((st.wr Reg.DMA_RXD_PTR 0).wr Reg.DMA_RXD_MAXCNT 0).wr Reg.DMA_RXD_LIST 0).wr
          Reg.DMA_TXD_PTR pData).wr Reg.DMA_TXD_LIST
            (k.SPIM_TXD_LIST_LIST_ArrayList <<< k.SPIM_TXD_LIST_LIST_Pos))
        n 0 hp hf
      refine ⟨st', ?_, r2⟩
      rw [r1]
      simp
    obtain ⟨st', r1, r2⟩ := hrun
    obtain ⟨ls, _, _, l3, l4, _⟩ := hgen fuel n st' r1
    refine ⟨st', r1, ?_⟩
    rw [l3]
    omega

/-- Witness for `txDataDma_chunks`: 510 bytes in chunks of at most 255 on a
peripheral that completes every chunk in full. -/
theorem txDataDma_chunks_witness :
    ∃ st', STM32L4xxQSPITxDataDma sampleBuildDma promptPeriph (stateWith sampleCfg) 0
        ((510 : Nat) : Int) 2 = some (((510 : Nat) : Int), st') ∧
      writesTo Reg.DMA_TASKS_START st'.wlog
        = writesTo Reg.DMA_TASKS_START (stateWith sampleCfg).wlog
          + ceilDiv 510 sampleBuildDma.NRF5X_SPI_DMA_MAXCNT :=
  (txDataDma_chunks sampleBuildDma promptPeriph (stateWith sampleCfg) 0 510 rfl
    (by decide) (by decide)).2.2
    (by
      intro j hj
      have hj2 : j = 0 ∨ j = 1 := by
        have : sampleBuildDma.NRF5X_SPI_DMA_MAXCNT = 255 := rfl
        rw [this] at hj
        omega
      rcases hj2 with h | h <;> subst h <;> exact ⟨rfl, by decide⟩)
    2 (by decide)

/-! ## Polled transmit: result -/

/-- The readiness wait writes nothing to the transmit data register. -/
theorem waitReady_txd_writes (p : Periph) :
    ∀ (t : Nat) (st : Driver),
      writesTo Reg.TXD (STM32L4xxQSPIWaitReady p st t).2.wlog = writesTo Reg.TXD st.wlog := by
  intro t
  induction t with
  | zero =>
    intro st
    unfold STM32L4xxQSPIWaitReady
    by_cases h : p.ready st.polls = true
    · rw [if_pos h]
      show writesTo Reg.TXD (st.wlog ++ [(Reg.EVENTS_READY, 0 % 4294967296)]) = _
      rw [writesTo_append, writesTo_single]
      simp
    · rw [if_neg h]
      rfl
  | succ t ih =>
    intro st
    unfold STM32L4xxQSPIWaitReady
    by_cases h : p.ready st.polls = true
    · rw [if_pos h]
      show writesTo Reg.TXD (st.wlog ++ [(Reg.EVENTS_READY, 0 % 4294967296)]) = _
      rw [writesTo_append, writesTo_single]
      simp
    · rw [if_neg h, ih]
      rfl

/-- The transmit loop stores one byte in the data register per byte moved,
and one more when a wait times out: the byte that wait was for. -/
theorem txLoop_txd_writes (p : Periph) :
    ∀ (n : Nat) (st : Driver) (data : List Nat) (i : Nat) (cnt : Int),
      writesTo Reg.TXD (TxDataLoop p n st data i cnt).2.wlog =
        writesTo Reg.TXD st.wlog + bytesBeforeTimeout p.ready 10000 n st.polls +
          (if bytesBeforeTimeout p.ready 10000 n st.polls < n then 1 else 0) := by
  intro n
  induction n with
  | zero => intro st data i cnt; simp [TxDataLoop, bytesBeforeTimeout]
  | succ n ih =>
    intro st data i cnt
    obtain ⟨h1, h2, _⟩ := wait_after_wr p st Reg.TXD (data.getD i 0) 10000
    have hw : writesTo Reg.TXD
        (nRF5xSPIWaitReady p (st.wr Reg.TXD (data.getD i 0)) 10000).2.wlog
        = writesTo Reg.TXD st.wlog + 1 := by
      show writesTo Reg.TXD
        (STM32L4xxQSPIWaitReady p (st.wr Reg.TXD (data.getD i 0)) 10000).2.wlog = _
      rw [waitReady_txd_writes, wr_wlog, writesTo_append, writesTo_single, if_pos rfl]
    unfold TxDataLoop
    cases hf : firstSet p.ready st.polls 10000 with
    | none =>
      rw [hf] at h1
      have h0 : (nRF5xSPIWaitReady p (st.wr Reg.TXD (data.getD i 0)) 10000).1 = false := h1
      rw [if_pos h0, bytesBeforeTimeout_succ_none _ _ _ _ hf]
      show writesTo Reg.TXD
        (nRF5xSPIWaitReady p (st.wr Reg.TXD (data.getD i 0)) 10000).2.wlog = _
      rw [hw, if_pos (Nat.succ_pos n)]
    | some j =>
      rw [hf] at h1
      have hne : ¬ (nRF5xSPIWaitReady p (st.wr Reg.TXD (data.getD i 0)) 10000).1 = false := by
        rw [h1]; simp
      rw [if_neg hne, ih, h2 j hf, bytesBeforeTimeout_succ_some _ _ _ _ _ hf]
      have hrd : (Driver.readRXD p
          (nRF5xSPIWaitReady p (st.wr Reg.TXD (data.getD i 0)) 10000).2).2.wlog
          = (nRF5xSPIWaitReady p (st.wr Reg.TXD (data.getD i 0)) 10000).2.wlog := rfl
      rw [hrd, hw]
      have hb := bytesBeforeTimeout_le p.ready 10000 n (st.polls + j + 1)
      by_cases hlt : bytesBeforeTimeout p.ready 10000 n (st.polls + j + 1) < n
      · rw [if_pos hlt, if_pos (by omega)]
        omega
      · rw [if_neg hlt, if_neg (by omega)]
        omega

/-- C10: for every data pointer, length and readiness behaviour, polled
`TxData` returns a count between 0 and `max(DataLen, 0)`, never a negative or
error value; the count is 0 for a null data pointer and otherwise the number
of bytes moved before the first readiness wait that times out, which is
`max(DataLen, 0)` when no wait times out.  (The data register has then been
stored to once per byte moved, and once more for the byte whose wait timed
out.) -/
theorem txData_count (p : Periph) (st : Driver) (pData : Option (List Nat)) (DataLen : Int) :
    0 ≤ (STM32L4xxQSPITxData p st pData DataLen).1 ∧
    (STM32L4xxQSPITxData p st pData DataLen).1 ≤ max DataLen 0 ∧
    (pData = none → (STM32L4xxQSPITxData p st pData DataLen).1 = 0) ∧
    (pData ≠ none → (STM32L4xxQSPITxData p st pData DataLen).1
      = bytesBeforeTimeout p.ready 10000 DataLen.toNat st.polls) ∧
    (pData ≠ none → (∀ pos, ∃ j, j ≤ 10000 ∧ p.ready (pos + j) = true) →
      (STM32L4xxQSPITxData p st pData DataLen).1 = max DataLen 0) ∧
    (pData ≠ none →
      writesTo Reg.TXD (STM32L4xxQSPITxData p st pData DataLen).2.wlog =
        writesTo Reg.TXD st.wlog + bytesBeforeTimeout p.ready 10000 DataLen.toNat st.polls +
          (if bytesBeforeTimeout p.ready 10000 DataLen.toNat st.polls < DataLen.toNat
            then 1 else 0)) := by
  cases pData with
  | none =>
    refine ⟨le_refl _, le_max_right _ _, fun _ => rfl, fun h => absurd rfl h,
      fun h => absurd rfl h, fun h => absurd rfl h⟩
  | some data =>
    have hc : (STM32L4xxQSPITxData p st (some data) DataLen).1
        = bytesBeforeTimeout p.ready 10000 DataLen.toNat st.polls := by
      unfold STM32L4xxQSPITxData
      simp only
      rw [txLoop_count]
      simp
    have hle := bytesBeforeTimeout_le p.ready 10000 DataLen.toNat st.polls
    refine ⟨?_, ?_, ?_, fun _ => hc, ?_, ?_⟩
    · rw [hc]; omega
    · rw [hc]; omega
    · intro h; cases h
    · intro _ hr
      rw [hc, bytesBeforeTimeout_all p.ready 10000 hr]
      omega
    · intro _
      unfold STM32L4xxQSPITxData
      simp only
      rw [txLoop_txd_writes]

/-- Witness for `txData_count`: three bytes on a peripheral that is always
ready are all moved; on a null pointer nothing is. -/
theorem txData_count_witness :
    (STM32L4xxQSPITxData promptPeriph (stateWith sampleCfg) (some [1, 2, 3]) 3).1 = max 3 0 ∧
    (STM32L4xxQSPITxData promptPeriph (stateWith sampleCfg) none 3).1 = 0 :=
  ⟨(txData_count promptPeriph (stateWith sampleCfg) (some [1, 2, 3]) 3).2.2.2.2.1
      (by simp) (fun _ => ⟨0, by decide, rfl⟩),
    (txData_count promptPeriph (stateWith sampleCfg) none 3).2.2.1 rfl⟩

/-! ## Readiness wait: result -/

/-- What the search finds is an observation within the budget that shows the
flag set. -/
theorem firstSet_some_ready (ready : Nat → Bool) (pos t j : Nat)
    (h : firstSet ready pos t = some j) : j ≤ t ∧ ready (pos + j) = true := by
  refine ⟨firstSet_le ready pos t j h, ?_⟩
  unfold firstSet at h
  exact @List.find?_some _ (fun i => ready (pos + i)) j _ h

/-- Counting observations one at a time or all at once. -/
theorem polled_polledBy (st : Driver) (n : Nat) :
    st.polled.polledBy n = st.polledBy (n + 1) := by
  cases st
  simp only [Driver.polled, Driver.polledBy, Driver.mk.injEq, true_and, and_true]
  omega

/-- The state the readiness wait returns, in full: on success the
observations up to the first set one are consumed and the flag is cleared; on
exhaustion all `t + 1` observations are consumed and nothing else happens. -/
theorem waitReady_state (p : Periph) :
    ∀ (t : Nat) (st : Driver),
      STM32L4xxQSPIWaitReady p st t =
        match firstSet p.ready st.polls t with
        | some j => (true, (st.polledBy (j + 1)).wr Reg.EVENTS_READY 0)
        | none => (false, st.polledBy (t + 1)) := by
  intro t
  induction t with
  | zero =>
    intro st
    rw [firstSet_zero]
    unfold STM32L4xxQSPIWaitReady
    by_cases h : p.ready st.polls = true
    · rw [if_pos h, if_pos h]
      rfl
    · rw [if_neg h, if_neg h]
      rfl
  | succ t ih =>
    intro st
    rw [firstSet_succ]
    unfold STM32L4xxQSPIWaitReady
    by_cases h : p.ready st.polls = true
    · rw [if_pos h, if_pos h]
      rfl
    · rw [if_neg h, if_neg h, ih st.polled]
      have hp : st.polled.polls = st.polls + 1 := rfl
      rw [hp]
      cases firstSet p.ready (st.polls + 1) t with
      | none =>
        show (false, st.polled.polledBy (t + 1)) = (false, st.polledBy (t + 1 + 1))
        rw [polled_polledBy]
      | some j =>
        show (true, (st.polled.polledBy (j + 1)).wr Reg.EVENTS_READY 0)
          = (true, (st.polledBy (j + 1 + 1)).wr Reg.EVENTS_READY 0)
        rw [polled_polledBy]

/-- C11: for every iteration budget `Timeout` and every sequence of
readiness-flag observations, the readiness wait returns true exactly when one
of the `Timeout + 1` observations it may make shows the flag set; it then has
cleared the flag (one store of 0 to `EVENTS_READY`, nothing else written).
When the budget is exhausted it returns false and has written no register:
register contents, the sequence of writes and every other part of the state
are as before, only the `Timeout + 1` observations are consumed.  It always
terminates, after at most `Timeout + 1` observations. -/
theorem waitReady_contract (p : Periph) (st : Driver) (Timeout : Nat) :
    ((STM32L4xxQSPIWaitReady p st Timeout).1 = true ↔
      ∃ j, j ≤ Timeout ∧ p.ready (st.polls + j) = true) ∧
    ((STM32L4xxQSPIWaitReady p st Timeout).1 = true →
      (STM32L4xxQSPIWaitReady p st Timeout).2.reg Reg.EVENTS_READY = 0 ∧
      (∀ r, r ≠ Reg.EVENTS_READY →
        (STM32L4xxQSPIWaitReady p st Timeout).2.reg r = st.reg r) ∧
      (STM32L4xxQSPIWaitReady p st Timeout).2.wlog = st.wlog ++ [(Reg.EVENTS_READY, 0)] ∧
      ∃ j, j ≤ Timeout ∧ p.ready (st.polls + j) = true ∧
        (STM32L4xxQSPIWaitReady p st Timeout).2
          = (st.polledBy (j + 1)).wr Reg.EVENTS_READY 0) ∧
    ((STM32L4xxQSPIWaitReady p st Timeout).1 = false →
      (STM32L4xxQSPIWaitReady p st Timeout).2 = st.polledBy (Timeout + 1) ∧
      (STM32L4xxQSPIWaitReady p st Timeout).2.reg = st.reg ∧
      (STM32L4xxQSPIWaitReady p st Timeout).2.wlog = st.wlog ∧
      (STM32L4xxQSPIWaitReady p st Timeout).2.pinLevel = st.pinLevel ∧
      (STM32L4xxQSPIWaitReady p st Timeout).2.ext = st.ext ∧
      (STM32L4xxQSPIWaitReady p st Timeout).2.spidev.Cfg = st.spidev.Cfg ∧
      (STM32L4xxQSPIWaitReady p st Timeout).2.spidev.CurDevCs = st.spidev.CurDevCs) ∧
    (STM32L4xxQSPIWaitReady p st Timeout).2.polls ≤ st.polls + (Timeout + 1) ∧
    st.polls < (STM32L4xxQSPIWaitReady p st Timeout).2.polls := by
  have hst := waitReady_state p Timeout st
  cases hf : firstSet p.ready st.polls Timeout with
  | none =>
    rw [hf] at hst
    replace hst : STM32L4xxQSPIWaitReady p st Timeout
        = (false, st.polledBy (Timeout + 1)) := hst
    have hno : ¬ ∃ j, j ≤ Timeout ∧ p.ready (st.polls + j) = true := by
      intro hex
      obtain ⟨j, hj⟩ := firstSet_isSome p.ready st.polls Timeout hex
      rw [hf] at hj
      cases hj
    rw [hst]
    refine ⟨?_, ?_, ?_, ?_, ?_⟩
    · constructor
      · intro h; cases h
      · intro h; exact absurd h hno
    · intro h; cases h
    · intro _
      exact ⟨rfl, rfl, rfl, rfl, rfl, rfl, rfl⟩
    · exact Nat.le_refl _
    · show st.polls < st.polls + (Timeout + 1)
      omega
  | some j =>
    rw [hf] at hst
    replace hst : STM32L4xxQSPIWaitReady p st Timeout
        = (true, (st.polledBy (j + 1)).wr Reg.EVENTS_READY 0) := hst
    obtain ⟨hj1, hj2⟩ := firstSet_some_ready p.ready st.polls Timeout j hf
    rw [hst]
    refine ⟨?_, ?_, ?_, ?_, ?_⟩
    · constructor
      · intro _; exact ⟨j, hj1, hj2⟩
      · intro _; rfl
    · intro _
      refine ⟨?_, ?_, ?_, ⟨j, hj1, hj2, rfl⟩⟩
      · show ((st.polledBy (j + 1)).wr Reg.EVENTS_READY 0).reg Reg.EVENTS_READY = 0
        rw [wr_reg, if_pos rfl]
      · intro r hr
        show ((st.polledBy (j + 1)).wr Reg.EVENTS_READY 0).reg r = st.reg r
        rw [wr_reg, if_neg hr]
        rfl
      · rfl
    · intro h; cases h
    · show st.polls + (j + 1) ≤ st.polls + (Timeout + 1)
      omega
    · show st.polls < st.polls + (j + 1)
      omega

/-- Witness for `waitReady_contract`: budget 5 on a peripheral that shows the
flag at the third observation, and on one that never shows it. -/
theorem waitReady_contract_witness :
    (STM32L4xxQSPIWaitReady lateReadyPeriph (stateWith sampleCfg) 5).1 = true ∧
    (STM32L4xxQSPIWaitReady lateReadyPeriph (stateWith sampleCfg) 5).2.reg Reg.EVENTS_READY
      = 0 ∧
    (STM32L4xxQSPIWaitReady silentPeriph (stateWith sampleCfg) 5).1 = false ∧
    (STM32L4xxQSPIWaitReady silentPeriph (stateWith sampleCfg) 5).2
      = (stateWith sampleCfg).polledBy 6 :=
  have hlate := waitReady_contract lateReadyPeriph (stateWith sampleCfg) 5
  have hsil := waitReady_contract silentPeriph (stateWith sampleCfg) 5
  have h1 : (STM32L4xxQSPIWaitReady lateReadyPeriph (stateWith sampleCfg) 5).1 = true :=
    hlate.1.mpr ⟨2, by decide, by decide⟩
  have h2 : (STM32L4xxQSPIWaitReady silentPeriph (stateWith sampleCfg) 5).1 = false := by
    decide
  ⟨h1, (hlate.2.1 h1).1, h2, (hsil.2.2.1 h2).1⟩

end QSPI
